import Mathlib

/-!
Verification of the feature-engineering pipeline of
`playground_series_s6e1_kaggle/features.py`.

The dataframe is shallowly embedded: a frame (`DF`) is a list of column
names together with rows, each row an association list from column name to
cell value (`Val`).  Floating-point numbers are modelled as exact rationals
(the literal `1e-6` becomes `1/1000000`); a pandas `NaN` cell is the
explicit `Val.missing` marker.  Fallible frame operations (reading a column
that does not exist raises `KeyError` in pandas) return `Except String DF`.
-/

/-- A cell value: a string, an exact rational number, or the missing
marker (pandas `NaN`). -/
inductive Val where
  | str (s : String)
  | num (q : ℚ)
  | missing
deriving DecidableEq, Repr

/-- Elementwise addition as pandas performs it on numeric series:
missing or non-numeric operands propagate the missing marker. -/
def Val.add : Val → Val → Val
  | .num a, .num b => .num (a + b)
  | _, _ => .missing

/-- Elementwise multiplication; non-numeric operands yield missing. -/
def Val.mul : Val → Val → Val
  | .num a, .num b => .num (a * b)
  | _, _ => .missing

/-- Elementwise division.  A zero denominator (which IEEE arithmetic would
turn into an infinity) is modelled as the missing marker; the pipeline
never divides by zero because of the `1e-6` epsilon. -/
def Val.div : Val → Val → Val
  | .num a, .num b => if b = 0 then .missing else .num (a / b)
  | _, _ => .missing

/-- A row: an association list from column name to cell value. -/
abbrev Row := List (String × Val)

/-- Value of column `c` in row `r`; missing when the row has no such
column (first occurrence wins, as in pandas lookup). -/
def rowGet (r : Row) (c : String) : Val :=
  match r with
  | [] => Val.missing
  | p :: rest => if p.1 = c then p.2 else rowGet rest c

/-- `df[c] = v` at row level: overwrite the first occurrence of `c` in
place, or append `(c, v)` at the end when `c` is absent. -/
def rowSet (r : Row) (c : String) (v : Val) : Row :=
  match r with
  | [] => [(c, v)]
  | p :: rest => if p.1 = c then (c, v) :: rest else p :: rowSet rest c v

/-- The column names of a row, in order. -/
def rowKeys (r : Row) : List String := r.map Prod.fst

/-- A dataframe: column names plus rows. -/
structure DF where
  cols : List String
  rows : List Row
deriving DecidableEq, Repr

deriving instance DecidableEq for Except

/-- Well-formedness: every row has exactly the frame's columns, in the
frame's column order. -/
def DF.WF (df : DF) : Prop := ∀ r ∈ df.rows, rowKeys r = df.cols

instance (df : DF) : Decidable df.WF := by
  unfold DF.WF; infer_instance

/-- `sleep_quality_mapping = {'poor': 0, 'average': 1, 'good': 2}`. -/
def sleep_quality_mapping : List (String × ℚ) := [("poor", 0), ("average", 1), ("good", 2)]

/-- `facility_rating_mapping = {'low': 0, 'medium': 1, 'high': 2}`. -/
def facility_rating_mapping : List (String × ℚ) := [("low", 0), ("medium", 1), ("high", 2)]

/-- `exam_difficulty_mapping = {'easy': 0, 'moderate': 1, 'hard': 2}`. -/
def exam_difficulty_mapping : List (String × ℚ) := [("easy", 0), ("moderate", 1), ("hard", 2)]

/-- `Series.map(dict)` on one cell: a string that is a key of the mapping
becomes its numeric code, anything else (unmapped string, number, NaN)
becomes the missing marker. -/
def mapLookup (m : List (String × ℚ)) (v : Val) : Val :=
  match v with
  | .str s =>
    match m.find? (fun p => p.1 == s) with
    | some p => .num p.2
    | none => .missing
  | _ => .missing

/-- `nominal_cols = ['gender', 'course', 'internet_access', 'study_method']`. -/
def nominal_cols : List String := ["gender", "course", "internet_access", "study_method"]

/-- Code-point comparison of character lists: lexicographic `≤`, exactly
the order Python and numpy use on strings. -/
def charListLe : List Char → List Char → Bool
  | [], _ => true
  | _ :: _, [] => false
  | a :: as, b :: bs =>
    if a.toNat < b.toNat then true
    else if b.toNat < a.toNat then false
    else charListLe as bs

/-- Lexicographic `≤` on strings by Unicode code point. -/
def strLe (a b : String) : Bool := charListLe a.data b.data

/-- Insert a string into a (sorted) list of strings. -/
def insertStr (x : String) : List String → List String
  | [] => [x]
  | y :: ys => if strLe x y then x :: y :: ys else y :: insertStr x ys

/-- Insertion sort on strings in ascending lexicographic order. -/
def sortStrs : List String → List String
  | [] => []
  | x :: xs => insertStr x (sortStrs xs)

/-- The distinct category strings observed in column `c` of the frame, in
ascending lexicographic order (`pd.get_dummies` emits dummy columns in
sorted category order). -/
def observedCats (df : DF) (c : String) : List String :=
  sortStrs ((df.rows.filterMap (fun r =>
      match rowGet r c with
      | .str s => some s
      | _ => none)).dedup)

/-- Names of the dummy columns `pd.get_dummies(..., drop_first=True)`
produces for column `c`: one per observed category except the first in
sorted order, named `c ++ "_" ++ category`. -/
def dummyNamesFor (df : DF) (c : String) : List String :=
  ((observedCats df c).drop 1).map (fun v => c ++ "_" ++ v)

/-- The dummy cells for column `c` of one row: indicator `1` exactly on
the category equal to the row's value, `0` elsewhere (rows whose value is
the dropped baseline or is not an observed string get all zeros). -/
def dummyRowFor (df : DF) (c : String) (r : Row) : Row :=
  ((observedCats df c).drop 1).map
    (fun v => (c ++ "_" ++ v, if rowGet r c = Val.str v then Val.num 1 else Val.num 0))

/-- First element of `cs` that is not a column of the frame (pandas raises
`KeyError` on it), if any. -/
def firstMissing (cols : List String) : List String → Option String
  | [] => none
  | c :: cs => if c ∈ cols then firstMissing cols cs else some c

/-- All dummy names produced over the nominal columns, in order. -/
def dumNames (df : DF) : List String := nominal_cols.flatMap (dummyNamesFor df)

/-- Row-level effect of `pd.get_dummies(df, columns=nominal_cols,
drop_first=True)`: the nominal cells are removed and the indicator cells
appended at the end, grouped by the order of `nominal_cols`. -/
def dumRow (df : DF) (r : Row) : Row :=
  r.filter (fun p => !(nominal_cols.contains p.1)) ++
    nominal_cols.flatMap (fun c => dummyRowFor df c r)

/-- `pd.get_dummies(df, columns=cs, prefix=cs, drop_first=True)`:
fails like pandas when one of `cs` is not a column; otherwise the encoded
columns are removed (non-encoded columns keep their order) and the dummy
columns are appended at the end. -/
def getDummies (df : DF) (cs : List String) : Except String DF :=
  match firstMissing df.cols cs with
  | some c => .error ("KeyError: " ++ c)
  | none =>
    .ok ⟨df.cols.filter (fun c => !(cs.contains c)) ++ cs.flatMap (dummyNamesFor df),
         df.rows.map (fun r =>
           r.filter (fun p => !(cs.contains p.1)) ++ cs.flatMap (fun c => dummyRowFor df c r))⟩

/-- `df[c] = df[c].map f`: fails like pandas when `c` is not a column. -/
def mapCol (df : DF) (c : String) (f : Val → Val) : Except String DF :=
  if c ∈ df.cols then
    .ok ⟨df.cols, df.rows.map (fun r => rowSet r c (f (rowGet r c)))⟩
  else .error ("KeyError: " ++ c)

/-- `df[dst] = g(df[a], df[b])`: reading a missing source column fails;
the destination column is overwritten in place when present, appended
otherwise. -/
def assign2 (df : DF) (dst a b : String) (g : Val → Val → Val) : Except String DF :=
  if a ∈ df.cols then
    if b ∈ df.cols then
      .ok ⟨if dst ∈ df.cols then df.cols else df.cols ++ [dst],
           df.rows.map (fun r => rowSet r dst (g (rowGet r a) (rowGet r b)))⟩
    else .error ("KeyError: " ++ b)
  else .error ("KeyError: " ++ a)

/-- `df[dst] = g(df[a])`, with the same error and overwrite behaviour as
`assign2`. -/
def assign1 (df : DF) (dst a : String) (g : Val → Val) : Except String DF :=
  if a ∈ df.cols then
    .ok ⟨if dst ∈ df.cols then df.cols else df.cols ++ [dst],
         df.rows.map (fun r => rowSet r dst (g (rowGet r a)))⟩
  else .error ("KeyError: " ++ a)

/-- The float literal `1e-6`, modelled as the exact rational. -/
def epsilon : ℚ := 1 / 1000000

/-- `create_features` from `features.py`: ordinal encoding of the three
ordered columns, one-hot encoding (baseline dropped) of the four nominal
columns, then the four derived numeric columns. -/
def create_features (df : DF) : Except String DF := do
  let d1 ← mapCol df "sleep_quality" (mapLookup sleep_quality_mapping)
  let d2 ← mapCol d1 "facility_rating" (mapLookup facility_rating_mapping)
  let d3 ← mapCol d2 "exam_difficulty" (mapLookup exam_difficulty_mapping)
  let d4 ← getDummies d3 nominal_cols
  let d5 ← assign2 d4 "study_efficiency" "class_attendance" "study_hours"
      (fun ca sh => Val.div ca (Val.add sh (Val.num epsilon)))
  let d6 ← assign2 d5 "study_sleep_interaction" "study_hours" "sleep_hours" Val.mul
  let d7 ← assign1 d6 "study_hours_sq" "study_hours" (fun v => Val.mul v v)
  let d8 ← assign1 d7 "class_attendance_sq" "class_attendance" (fun v => Val.mul v v)
  pure d8

/-- The nine source columns `create_features` reads, in the order in which
the code first touches each of them. -/
def requiredCols : List String :=
  ["sleep_quality", "facility_rating", "exam_difficulty",
   "gender", "course", "internet_access", "study_method",
   "class_attendance", "study_hours", "sleep_hours"]

/-- The four derived column names, in the order they are assigned. -/
def derivedNames : List String :=
  ["study_efficiency", "study_sleep_interaction", "study_hours_sq", "class_attendance_sq"]

/-- Row-level effect of the three ordinal `map` assignments, in source
order. -/
def encRow (r : Row) : Row :=
  let r1 := rowSet r "sleep_quality" (mapLookup sleep_quality_mapping (rowGet r "sleep_quality"))
  let r2 := rowSet r1 "facility_rating"
      (mapLookup facility_rating_mapping (rowGet r1 "facility_rating"))
  rowSet r2 "exam_difficulty" (mapLookup exam_difficulty_mapping (rowGet r2 "exam_difficulty"))

/-- The frame after the ordinal-encoding stage. -/
def encDF (df : DF) : DF := ⟨df.cols, df.rows.map encRow⟩

/-- Row-level effect of the four derived-feature assignments, in source
order. -/
def derivRow (r : Row) : Row :=
  let r1 := rowSet r "study_efficiency"
      (Val.div (rowGet r "class_attendance") (Val.add (rowGet r "study_hours") (Val.num epsilon)))
  let r2 := rowSet r1 "study_sleep_interaction"
      (Val.mul (rowGet r1 "study_hours") (rowGet r1 "sleep_hours"))
  let r3 := rowSet r2 "study_hours_sq" (Val.mul (rowGet r2 "study_hours") (rowGet r2 "study_hours"))
  rowSet r3 "class_attendance_sq"
      (Val.mul (rowGet r3 "class_attendance") (rowGet r3 "class_attendance"))

/-- What `create_features` does to one row (the dummy vocabulary is taken
from the ordinal-encoded frame, as in the code). -/
def featuredRow (df : DF) (r : Row) : Row := derivRow (dumRow (encDF df) (encRow r))

/-- Reading row `r` through a fixed column list, as `pd.concat` does when
aligning frames on the union of their columns. -/
def alignRow (cols : List String) (r : Row) : Row := cols.map (fun c => (c, rowGet r c))

/-- `pd.concat([a, b], ignore_index=True)`: columns are the union (order
of `a` first), rows of both frames aligned to it, missing where a frame
lacks a column. -/
def concatDF (a b : DF) : DF :=
  ⟨a.cols ++ b.cols.filter (fun c => !(a.cols.contains c)),
   (a.rows ++ b.rows).map
     (alignRow (a.cols ++ b.cols.filter (fun c => !(a.cols.contains c))))⟩

/-- `df[c]` as a list of cell values; fails like pandas when `c` is not a
column. -/
def getColVals (df : DF) (c : String) : Except String (List Val) :=
  if c ∈ df.cols then .ok (df.rows.map (fun r => rowGet r c)) else .error ("KeyError: " ++ c)

/-- `df.drop(columns=[c])`; fails when `c` is not a column. -/
def dropCol (df : DF) (c : String) : Except String DF :=
  if c ∈ df.cols then
    .ok ⟨df.cols.filter (fun x => !(x == c)),
         df.rows.map (fun r => r.filter (fun p => !(p.1 == c)))⟩
  else .error ("KeyError: " ++ c)

/-- `df[c] = vals` with a whole list of values (`target.values`): pandas
requires the lengths to agree. -/
def setColValsE (df : DF) (c : String) (vals : List Val) : Except String DF :=
  if df.rows.length = vals.length then
    .ok ⟨if c ∈ df.cols then df.cols else df.cols ++ [c],
         (df.rows.zip vals).map (fun rv => rowSet rv.1 c rv.2)⟩
  else .error "Length of values does not match length of index"

/-- `main` from `features.py`, between the two `read_csv` calls and the
two `to_csv` calls: extract the label, drop it from the train frame,
concatenate with the test frame, create features, split at the original
train row count, reattach the label to the train part. -/
def runPipeline (train_df test_df : DF) : Except String (DF × DF) := do
  let target ← getColVals train_df "exam_score"
  let train_p ← dropCol train_df "exam_score"
  let combined := concatDF train_p test_df
  let featured ← create_features combined
  let train_featured : DF := ⟨featured.cols, featured.rows.take train_df.rows.length⟩
  let test_featured : DF := ⟨featured.cols, featured.rows.drop train_df.rows.length⟩
  let train_out ← setColValsE train_featured "exam_score" target
  pure (train_out, test_featured)

/-! ### Basic association-list lemmas -/

theorem rowKeys_nil : rowKeys [] = [] := rfl

theorem rowKeys_cons (p : String × Val) (r : Row) : rowKeys (p :: r) = p.1 :: rowKeys r := rfl

theorem rowKeys_append (r s : Row) : rowKeys (r ++ s) = rowKeys r ++ rowKeys s := by
  simp [rowKeys]

theorem rowGet_rowSet_self (r : Row) (c : String) (v : Val) :
    rowGet (rowSet r c v) c = v := by
  induction r with
  | nil => simp [rowSet, rowGet]
  | cons p rest ih =>
    by_cases h : p.1 = c
    · simp [rowSet, if_pos h, rowGet]
    · rw [rowSet, if_neg h]
      simp only [rowGet, if_neg h]
      exact ih

theorem rowGet_rowSet_ne (r : Row) (c c' : String) (v : Val) (h : c' ≠ c) :
    rowGet (rowSet r c v) c' = rowGet r c' := by
  induction r with
  | nil =>
    simp only [rowSet, rowGet]
    rw [if_neg (fun hh : c = c' => h hh.symm)]
  | cons p rest ih =>
    by_cases hp : p.1 = c
    · have h1 : ¬ c = c' := fun hh => h hh.symm
      have h2 : ¬ p.1 = c' := by rw [hp]; exact h1
      rw [rowSet, if_pos hp]
      simp only [rowGet, if_neg h1, if_neg h2]
    · by_cases hq : p.1 = c'
      · rw [rowSet, if_neg hp]
        simp only [rowGet, if_pos hq]
      · rw [rowSet, if_neg hp]
        simp only [rowGet, if_neg hq]
        exact ih

theorem mem_rowKeys_rowSet_self (r : Row) (c : String) (v : Val) :
    c ∈ rowKeys (rowSet r c v) := by
  induction r with
  | nil => simp [rowSet, rowKeys]
  | cons p rest ih =>
    by_cases h : p.1 = c
    · rw [rowSet, if_pos h, rowKeys_cons]
      exact List.mem_cons_self _ _
    · rw [rowSet, if_neg h, rowKeys_cons]
      exact List.mem_cons_of_mem _ ih

theorem mem_rowKeys_rowSet_of_mem (r : Row) (c c' : String) (v : Val)
    (h : c' ∈ rowKeys r) : c' ∈ rowKeys (rowSet r c v) := by
  induction r with
  | nil => simp [rowKeys] at h
  | cons p rest ih =>
    rw [rowKeys_cons, List.mem_cons] at h
    by_cases hp : p.1 = c
    · rw [rowSet, if_pos hp, rowKeys_cons, List.mem_cons]
      rcases h with h | h
      · exact Or.inl (h.trans hp)
      · exact Or.inr h
    · rw [rowSet, if_neg hp, rowKeys_cons, List.mem_cons]
      rcases h with h | h
      · exact Or.inl h
      · exact Or.inr (ih h)

theorem rowSet_of_not_mem (r : Row) (c : String) (v : Val) (h : c ∉ rowKeys r) :
    rowSet r c v = r ++ [(c, v)] := by
  induction r with
  | nil => simp [rowSet]
  | cons p rest ih =>
    rw [rowKeys_cons, List.mem_cons] at h
    push_neg at h
    have hp : ¬ p.1 = c := fun hh => h.1 hh.symm
    rw [rowSet, if_neg hp, List.cons_append]
    rw [ih h.2]

theorem rowKeys_rowSet_of_mem (r : Row) (c : String) (v : Val) (h : c ∈ rowKeys r) :
    rowKeys (rowSet r c v) = rowKeys r := by
  induction r with
  | nil => simp [rowKeys] at h
  | cons p rest ih =>
    rw [rowKeys_cons, List.mem_cons] at h
    by_cases hp : p.1 = c
    · rw [rowSet, if_pos hp, rowKeys_cons, rowKeys_cons, hp]
    · rcases h with h | h
      · exact absurd h.symm hp
      · rw [rowSet, if_neg hp, rowKeys_cons, rowKeys_cons, ih h]

theorem rowGet_eq_missing_of_not_mem (r : Row) (c : String) (h : c ∉ rowKeys r) :
    rowGet r c = Val.missing := by
  induction r with
  | nil => simp [rowGet]
  | cons p rest ih =>
    rw [rowKeys_cons, List.mem_cons] at h
    push_neg at h
    have hp : ¬ p.1 = c := fun hh => h.1 hh.symm
    simp only [rowGet, if_neg hp]
    exact ih h.2

theorem rowGet_append_left (r s : Row) (c : String) (h : c ∈ rowKeys r) :
    rowGet (r ++ s) c = rowGet r c := by
  induction r with
  | nil => simp [rowKeys] at h
  | cons p rest ih =>
    rw [rowKeys_cons, List.mem_cons] at h
    by_cases hp : p.1 = c
    · rw [List.cons_append]
      simp only [rowGet, if_pos hp]
    · rcases h with h | h
      · exact absurd h.symm hp
      · rw [List.cons_append]
        simp only [rowGet, if_neg hp]
        exact ih h

theorem rowGet_append_of_not_mem_right (r s : Row) (c : String) (h : c ∉ rowKeys s) :
    rowGet (r ++ s) c = rowGet r c := by
  induction r with
  | nil =>
    simp only [List.nil_append]
    rw [rowGet_eq_missing_of_not_mem s c h]
    rfl
  | cons p rest ih =>
    by_cases hp : p.1 = c
    · rw [List.cons_append]
      simp only [rowGet, if_pos hp]
    · rw [List.cons_append]
      simp only [rowGet, if_neg hp]
      exact ih

theorem rowGet_filter_keys (r : Row) (Q : String → Bool) (c : String) (hQ : Q c = true) :
    rowGet (r.filter (fun p => Q p.1)) c = rowGet r c := by
  induction r with
  | nil => simp [rowGet]
  | cons p rest ih =>
    by_cases hp : p.1 = c
    · have hq : Q p.1 = true := by rw [hp]; exact hQ
      rw [List.filter_cons, if_pos hq]
      simp only [rowGet, if_pos hp]
    · by_cases hq : Q p.1 = true
      · rw [List.filter_cons, if_pos hq]
        simp only [rowGet, if_neg hp]
        exact ih
      · rw [List.filter_cons, if_neg hq]
        simp only [rowGet, if_neg hp]
        exact ih

theorem rowKeys_filter_keys (r : Row) (Q : String → Bool) :
    rowKeys (r.filter (fun p => Q p.1)) = (rowKeys r).filter Q := by
  induction r with
  | nil => rfl
  | cons p rest ih =>
    by_cases hq : Q p.1 = true
    · rw [List.filter_cons, if_pos hq, rowKeys_cons, rowKeys_cons, List.filter_cons, if_pos hq, ih]
    · rw [List.filter_cons, if_neg hq, rowKeys_cons, List.filter_cons, if_neg hq, ih]

/-! ### String and Except helpers -/

theorem stringData_append (a b : String) : (a ++ b).data = a.data ++ b.data := by
  cases a
  cases b
  rfl

theorem append_ne_of_data (p s : String) (h : s.data.take p.data.length ≠ p.data) (v : String) :
    p ++ v ≠ s := by
  intro heq
  apply h
  rw [← heq, stringData_append, List.take_left]

theorem except_bind_ok {ε α β : Type} (x : Except ε α) (f : α → Except ε β) (b : β) :
    (x >>= f) = Except.ok b ↔ ∃ a, x = Except.ok a ∧ f a = Except.ok b := by
  cases x with
  | error e => simp [Bind.bind, Except.bind]
  | ok a => simp [Bind.bind, Except.bind]

theorem not_mem_dummy_names (d : DF) (x : String)
    (h : ∀ c ∈ nominal_cols, x.data.take ((c ++ "_").data.length) ≠ (c ++ "_").data) :
    x ∉ dumNames d := by
  intro hx
  rw [dumNames, List.mem_flatMap] at hx
  obtain ⟨c, hc, hx⟩ := hx
  rw [dummyNamesFor, List.mem_map] at hx
  obtain ⟨v, hv, hx⟩ := hx
  exact append_ne_of_data (c ++ "_") x (h c hc) v hx

/-! ### Characterization of the frame operations -/

theorem mapCol_ok {df df' : DF} {c : String} {f : Val → Val} (h : mapCol df c f = .ok df') :
    c ∈ df.cols ∧ df' = ⟨df.cols, df.rows.map (fun r => rowSet r c (f (rowGet r c)))⟩ := by
  by_cases hc : c ∈ df.cols
  · rw [mapCol, if_pos hc, Except.ok.injEq] at h
    exact ⟨hc, h.symm⟩
  · rw [mapCol, if_neg hc] at h
    exact absurd h (by simp)

theorem getDummies_ok {df df' : DF} {cs : List String} (h : getDummies df cs = .ok df') :
    firstMissing df.cols cs = none ∧
      df' = ⟨df.cols.filter (fun c => !(cs.contains c)) ++ cs.flatMap (dummyNamesFor df),
             df.rows.map (fun r =>
               r.filter (fun p => !(cs.contains p.1)) ++
                 cs.flatMap (fun c => dummyRowFor df c r))⟩ := by
  unfold getDummies at h
  split at h
  · exact absurd h (by simp)
  · rename_i hm
    rw [Except.ok.injEq] at h
    exact ⟨hm, h.symm⟩

theorem assign2_ok {df df' : DF} {dst a b : String} {g : Val → Val → Val}
    (h : assign2 df dst a b g = .ok df') :
    a ∈ df.cols ∧ b ∈ df.cols ∧
      df' = ⟨if dst ∈ df.cols then df.cols else df.cols ++ [dst],
             df.rows.map (fun r => rowSet r dst (g (rowGet r a) (rowGet r b)))⟩ := by
  by_cases ha : a ∈ df.cols
  · by_cases hb : b ∈ df.cols
    · rw [assign2, if_pos ha, if_pos hb, Except.ok.injEq] at h
      exact ⟨ha, hb, h.symm⟩
    · rw [assign2, if_pos ha, if_neg hb] at h
      exact absurd h (by simp)
  · rw [assign2, if_neg ha] at h
    exact absurd h (by simp)

theorem assign1_ok {df df' : DF} {dst a : String} {g : Val → Val}
    (h : assign1 df dst a g = .ok df') :
    a ∈ df.cols ∧
      df' = ⟨if dst ∈ df.cols then df.cols else df.cols ++ [dst],
             df.rows.map (fun r => rowSet r dst (g (rowGet r a)))⟩ := by
  by_cases ha : a ∈ df.cols
  · rw [assign1, if_pos ha, Except.ok.injEq] at h
    exact ⟨ha, h.symm⟩
  · rw [assign1, if_neg ha] at h
    exact absurd h (by simp)

/-! ### Row-level facts about the three stages -/

theorem rowGet_encRow_of_ne (r : Row) (c : String) (h1 : c ≠ "sleep_quality")
    (h2 : c ≠ "facility_rating") (h3 : c ≠ "exam_difficulty") :
    rowGet (encRow r) c = rowGet r c := by
  simp only [encRow]
  rw [rowGet_rowSet_ne _ _ _ _ h3, rowGet_rowSet_ne _ _ _ _ h2, rowGet_rowSet_ne _ _ _ _ h1]

theorem rowGet_encRow_sq (r : Row) :
    rowGet (encRow r) "sleep_quality"
      = mapLookup sleep_quality_mapping (rowGet r "sleep_quality") := by
  simp only [encRow]
  rw [rowGet_rowSet_ne _ _ _ _ (by decide), rowGet_rowSet_ne _ _ _ _ (by decide),
    rowGet_rowSet_self]

theorem rowGet_encRow_fr (r : Row) :
    rowGet (encRow r) "facility_rating"
      = mapLookup facility_rating_mapping (rowGet r "facility_rating") := by
  simp only [encRow]
  rw [rowGet_rowSet_ne _ _ _ _ (by decide), rowGet_rowSet_self,
    rowGet_rowSet_ne _ _ _ _ (by decide)]

theorem rowGet_encRow_ed (r : Row) :
    rowGet (encRow r) "exam_difficulty"
      = mapLookup exam_difficulty_mapping (rowGet r "exam_difficulty") := by
  simp only [encRow]
  rw [rowGet_rowSet_self, rowGet_rowSet_ne _ _ _ _ (by decide),
    rowGet_rowSet_ne _ _ _ _ (by decide)]

theorem mem_rowKeys_encRow_of_mem (r : Row) (c : String) (h : c ∈ rowKeys r) :
    c ∈ rowKeys (encRow r) := by
  simp only [encRow]
  exact mem_rowKeys_rowSet_of_mem _ _ _ _
    (mem_rowKeys_rowSet_of_mem _ _ _ _ (mem_rowKeys_rowSet_of_mem _ _ _ _ h))

theorem rowKeys_dummyRowFor (d : DF) (c : String) (r : Row) :
    rowKeys (dummyRowFor d c r) = dummyNamesFor d c := by
  simp only [dummyRowFor, dummyNamesFor, rowKeys, List.map_map]
  rfl

theorem rowKeys_flatMap_dummy_aux (d : DF) (r : Row) (cs : List String) :
    rowKeys (cs.flatMap (fun c => dummyRowFor d c r)) = cs.flatMap (dummyNamesFor d) := by
  induction cs with
  | nil => rfl
  | cons c cs ih =>
    rw [List.flatMap_cons, List.flatMap_cons, rowKeys_append, ih, rowKeys_dummyRowFor]

theorem rowKeys_flatMap_dummy (d : DF) (r : Row) :
    rowKeys (nominal_cols.flatMap (fun c => dummyRowFor d c r)) = dumNames d :=
  rowKeys_flatMap_dummy_aux d r nominal_cols

theorem rowGet_dumRow_of (d : DF) (r : Row) (c : String)
    (hq : nominal_cols.contains c = false) (hnd : c ∉ dumNames d) :
    rowGet (dumRow d r) c = rowGet r c := by
  rw [dumRow, rowGet_append_of_not_mem_right]
  · exact rowGet_filter_keys r (fun x => !nominal_cols.contains x) c (by show (!nominal_cols.contains c) = true; rw [hq]; rfl)
  · rw [rowKeys_flatMap_dummy]
    exact hnd

theorem mem_rowKeys_dumRow_of (d : DF) (r : Row) (c : String)
    (hq : nominal_cols.contains c = false) (h : c ∈ rowKeys r) :
    c ∈ rowKeys (dumRow d r) := by
  rw [dumRow, rowKeys_append]
  apply List.mem_append_left
  have hk := rowKeys_filter_keys r (fun x => !nominal_cols.contains x)
  rw [hk, List.mem_filter]
  exact ⟨h, by rw [hq]; rfl⟩

theorem rowGet_derivRow_of_ne (r : Row) (c : String)
    (h1 : c ≠ "study_efficiency") (h2 : c ≠ "study_sleep_interaction")
    (h3 : c ≠ "study_hours_sq") (h4 : c ≠ "class_attendance_sq") :
    rowGet (derivRow r) c = rowGet r c := by
  simp only [derivRow]
  rw [rowGet_rowSet_ne _ _ _ _ h4, rowGet_rowSet_ne _ _ _ _ h3, rowGet_rowSet_ne _ _ _ _ h2,
    rowGet_rowSet_ne _ _ _ _ h1]

theorem rowGet_derivRow_se (r : Row) :
    rowGet (derivRow r) "study_efficiency"
      = Val.div (rowGet r "class_attendance")
          (Val.add (rowGet r "study_hours") (Val.num epsilon)) := by
  simp only [derivRow]
  rw [rowGet_rowSet_ne _ _ _ _ (by decide), rowGet_rowSet_ne _ _ _ _ (by decide),
    rowGet_rowSet_ne _ _ _ _ (by decide), rowGet_rowSet_self]

theorem rowGet_derivRow_ssi (r : Row) :
    rowGet (derivRow r) "study_sleep_interaction"
      = Val.mul (rowGet r "study_hours") (rowGet r "sleep_hours") := by
  simp only [derivRow]
  rw [rowGet_rowSet_ne _ _ _ _ (by decide), rowGet_rowSet_ne _ _ _ _ (by decide),
    rowGet_rowSet_self, rowGet_rowSet_ne _ _ _ _ (by decide),
    rowGet_rowSet_ne _ _ _ _ (by decide)]

theorem rowGet_derivRow_shs (r : Row) :
    rowGet (derivRow r) "study_hours_sq"
      = Val.mul (rowGet r "study_hours") (rowGet r "study_hours") := by
  simp only [derivRow]
  rw [rowGet_rowSet_ne _ _ _ _ (by decide), rowGet_rowSet_self,
    rowGet_rowSet_ne _ _ _ _ (by decide), rowGet_rowSet_ne _ _ _ _ (by decide)]

theorem rowGet_derivRow_cas (r : Row) :
    rowGet (derivRow r) "class_attendance_sq"
      = Val.mul (rowGet r "class_attendance") (rowGet r "class_attendance") := by
  simp only [derivRow]
  rw [rowGet_rowSet_self, rowGet_rowSet_ne _ _ _ _ (by decide),
    rowGet_rowSet_ne _ _ _ _ (by decide), rowGet_rowSet_ne _ _ _ _ (by decide)]

/-! ### Unfolding `create_features` -/

theorem create_features_parts {df df' : DF} (h : create_features df = .ok df') :
    ∃ d4 d5 d6 d7,
      getDummies (encDF df) nominal_cols = .ok d4 ∧
      assign2 d4 "study_efficiency" "class_attendance" "study_hours"
        (fun ca sh => Val.div ca (Val.add sh (Val.num epsilon))) = .ok d5 ∧
      assign2 d5 "study_sleep_interaction" "study_hours" "sleep_hours" Val.mul = .ok d6 ∧
      assign1 d6 "study_hours_sq" "study_hours" (fun v => Val.mul v v) = .ok d7 ∧
      assign1 d7 "class_attendance_sq" "class_attendance" (fun v => Val.mul v v) = .ok df' ∧
      "sleep_quality" ∈ df.cols ∧ "facility_rating" ∈ df.cols ∧
      "exam_difficulty" ∈ df.cols := by
  rw [create_features] at h
  rw [except_bind_ok] at h
  obtain ⟨d1, h1, h⟩ := h
  rw [except_bind_ok] at h
  obtain ⟨d2, h2, h⟩ := h
  rw [except_bind_ok] at h
  obtain ⟨d3, h3, h⟩ := h
  rw [except_bind_ok] at h
  obtain ⟨d4, h4, h⟩ := h
  rw [except_bind_ok] at h
  obtain ⟨d5, h5, h⟩ := h
  rw [except_bind_ok] at h
  obtain ⟨d6, h6, h⟩ := h
  rw [except_bind_ok] at h
  obtain ⟨d7, h7, h⟩ := h
  rw [except_bind_ok] at h
  obtain ⟨d8, h8, h⟩ := h
  have hdf' : d8 = df' := by
    have : (pure d8 : Except String DF) = Except.ok d8 := rfl
    rw [this, Except.ok.injEq] at h
    exact h
  subst hdf'
  obtain ⟨hc1, hd1⟩ := mapCol_ok h1
  subst hd1
  obtain ⟨hc2, hd2⟩ := mapCol_ok h2
  subst hd2
  obtain ⟨hc3, hd3⟩ := mapCol_ok h3
  have henc : d3 = encDF df := by
    rw [hd3, encDF]
    congr 1
    simp only [List.map_map]
    rfl
  rw [henc] at h4
  exact ⟨d4, d5, d6, d7, h4, h5, h6, h7, h8, hc1, hc2, hc3⟩

theorem create_features_rows {df df' : DF} (h : create_features df = .ok df') :
    df'.rows = df.rows.map (featuredRow df) := by
  obtain ⟨d4, d5, d6, d7, h4, h5, h6, h7, h8, -, -, -⟩ := create_features_parts h
  obtain ⟨-, hd4⟩ := getDummies_ok h4
  subst hd4
  obtain ⟨-, -, hd5⟩ := assign2_ok h5
  subst hd5
  obtain ⟨-, -, hd6⟩ := assign2_ok h6
  subst hd6
  obtain ⟨-, hd7⟩ := assign1_ok h7
  subst hd7
  obtain ⟨-, hd8⟩ := assign1_ok h8
  subst hd8
  dsimp only [encDF]
  simp only [List.map_map]
  rfl

theorem mem_ite_append {l : List String} {d x : String} :
    (x ∈ (if d ∈ l then l else l ++ [d])) ↔ (x ∈ l ∨ x = d) := by
  by_cases hd : d ∈ l
  · rw [if_pos hd]
    constructor
    · exact fun h => Or.inl h
    · rintro (h | h)
      · exact h
      · exact h ▸ hd
  · rw [if_neg hd]
    simp [List.mem_append]

set_option maxHeartbeats 1600000 in
theorem create_features_cols_mem {df df' : DF} (h : create_features df = .ok df')
    (x : String) :
    x ∈ df'.cols ↔ ((x ∈ df.cols ∧ nominal_cols.contains x = false)
      ∨ x ∈ dumNames (encDF df) ∨ x ∈ derivedNames) := by
  obtain ⟨d4, d5, d6, d7, h4, h5, h6, h7, h8, -, -, -⟩ := create_features_parts h
  obtain ⟨-, hd4⟩ := getDummies_ok h4
  subst hd4
  obtain ⟨-, -, hd5⟩ := assign2_ok h5
  subst hd5
  obtain ⟨-, -, hd6⟩ := assign2_ok h6
  subst hd6
  obtain ⟨-, hd7⟩ := assign1_ok h7
  subst hd7
  obtain ⟨-, hd8⟩ := assign1_ok h8
  subst hd8
  have hfold : (encDF df).cols.filter (fun c => !(nominal_cols.contains c)) ++
      nominal_cols.flatMap (dummyNamesFor (encDF df))
      = df.cols.filter (fun c => !(nominal_cols.contains c)) ++ dumNames (encDF df) := rfl
  dsimp only
  rw [hfold]
  rw [mem_ite_append, mem_ite_append, mem_ite_append, mem_ite_append, List.mem_append,
    List.mem_filter]
  simp only [Bool.not_eq_true', derivedNames, List.mem_cons, List.not_mem_nil, or_false]
  tauto

theorem not_mem_dumNames_of_derived {d : DF} {x : String} (hx : x ∈ derivedNames) :
    x ∉ dumNames d := by
  apply not_mem_dummy_names
  simp only [derivedNames, List.mem_cons, List.not_mem_nil, or_false] at hx
  rcases hx with hx | hx | hx | hx
  · rw [hx]; decide
  · rw [hx]; decide
  · rw [hx]; decide
  · rw [hx]; decide

set_option maxHeartbeats 1600000 in
theorem create_features_cols_eq {df df' : DF} (h : create_features df = .ok df')
    (hf : ∀ d ∈ derivedNames, d ∉ df.cols) :
    df'.cols = df.cols.filter (fun c => !(nominal_cols.contains c))
      ++ dumNames (encDF df) ++ derivedNames := by
  obtain ⟨d4, d5, d6, d7, h4, h5, h6, h7, h8, -, -, -⟩ := create_features_parts h
  obtain ⟨-, hd4⟩ := getDummies_ok h4
  subst hd4
  obtain ⟨-, -, hd5⟩ := assign2_ok h5
  subst hd5
  obtain ⟨-, -, hd6⟩ := assign2_ok h6
  subst hd6
  obtain ⟨-, hd7⟩ := assign1_ok h7
  subst hd7
  obtain ⟨-, hd8⟩ := assign1_ok h8
  subst hd8
  have hfold : (encDF df).cols.filter (fun c => !(nominal_cols.contains c)) ++
      nominal_cols.flatMap (dummyNamesFor (encDF df))
      = df.cols.filter (fun c => !(nominal_cols.contains c)) ++ dumNames (encDF df) := rfl
  have key : ∀ x ∈ derivedNames,
      x ∉ df.cols.filter (fun c => !(nominal_cols.contains c)) ++ dumNames (encDF df) := by
    intro x hx
    rw [List.mem_append]
    rintro (hm | hm)
    · exact hf x hx (List.mem_filter.1 hm).1
    · exact not_mem_dumNames_of_derived hx hm
  dsimp only
  rw [hfold]
  rw [if_neg (key "study_efficiency" (by decide))]
  rw [if_neg (show "study_sleep_interaction" ∉
      (df.cols.filter (fun c => !(nominal_cols.contains c)) ++ dumNames (encDF df))
        ++ ["study_efficiency"] by
    rw [List.mem_append]
    rintro (hm | hm)
    · exact key _ (by decide) hm
    · exact absurd hm (by decide))]
  rw [if_neg (show "study_hours_sq" ∉
      ((df.cols.filter (fun c => !(nominal_cols.contains c)) ++ dumNames (encDF df))
        ++ ["study_efficiency"]) ++ ["study_sleep_interaction"] by
    rw [List.mem_append, List.mem_append]
    rintro ((hm | hm) | hm)
    · exact key _ (by decide) hm
    · exact absurd hm (by decide)
    · exact absurd hm (by decide))]
  rw [if_neg (show "class_attendance_sq" ∉
      (((df.cols.filter (fun c => !(nominal_cols.contains c)) ++ dumNames (encDF df))
        ++ ["study_efficiency"]) ++ ["study_sleep_interaction"]) ++ ["study_hours_sq"] by
    rw [List.mem_append, List.mem_append, List.mem_append]
    rintro (((hm | hm) | hm) | hm)
    · exact key _ (by decide) hm
    · exact absurd hm (by decide)
    · exact absurd hm (by decide)
    · exact absurd hm (by decide))]
  rw [derivedNames]
  simp [List.append_assoc]

theorem getD_map_rows {l : List Row} {f : Row → Row} {i : Nat} (hi : i < l.length) :
    (l.map f).getD i [] = f (l.getD i []) := by
  induction l generalizing i with
  | nil => simp at hi
  | cons a l ih =>
    cases i with
    | zero => simp
    | succ n =>
      rw [List.map_cons, List.getD_cons_succ, List.getD_cons_succ]
      exact ih (Nat.lt_of_succ_lt_succ hi)

theorem rowGet_featuredRow_sq (df : DF) (r : Row) :
    rowGet (featuredRow df r) "sleep_quality"
      = mapLookup sleep_quality_mapping (rowGet r "sleep_quality") := by
  rw [featuredRow, rowGet_derivRow_of_ne _ _ (by decide) (by decide) (by decide) (by decide),
    rowGet_dumRow_of _ _ _ (by decide) (not_mem_dummy_names _ _ (by decide)),
    rowGet_encRow_sq]

theorem rowGet_featuredRow_fr (df : DF) (r : Row) :
    rowGet (featuredRow df r) "facility_rating"
      = mapLookup facility_rating_mapping (rowGet r "facility_rating") := by
  rw [featuredRow, rowGet_derivRow_of_ne _ _ (by decide) (by decide) (by decide) (by decide),
    rowGet_dumRow_of _ _ _ (by decide) (not_mem_dummy_names _ _ (by decide)),
    rowGet_encRow_fr]

theorem rowGet_featuredRow_ed (df : DF) (r : Row) :
    rowGet (featuredRow df r) "exam_difficulty"
      = mapLookup exam_difficulty_mapping (rowGet r "exam_difficulty") := by
  rw [featuredRow, rowGet_derivRow_of_ne _ _ (by decide) (by decide) (by decide) (by decide),
    rowGet_dumRow_of _ _ _ (by decide) (not_mem_dummy_names _ _ (by decide)),
    rowGet_encRow_ed]

theorem rowGet_featuredRow_of_ne (df : DF) (r : Row) (c : String)
    (h1 : c ≠ "study_efficiency") (h2 : c ≠ "study_sleep_interaction")
    (h3 : c ≠ "study_hours_sq") (h4 : c ≠ "class_attendance_sq")
    (hq : nominal_cols.contains c = false) (hnd : c ∉ dumNames (encDF df))
    (h5 : c ≠ "sleep_quality") (h6 : c ≠ "facility_rating") (h7 : c ≠ "exam_difficulty") :
    rowGet (featuredRow df r) c = rowGet r c := by
  rw [featuredRow, rowGet_derivRow_of_ne _ _ h1 h2 h3 h4, rowGet_dumRow_of _ _ _ hq hnd,
    rowGet_encRow_of_ne _ _ h5 h6 h7]

theorem mapLookup_eq_missing (m : List (String × ℚ)) (v : Val)
    (hv : ∀ p ∈ m, Val.str p.1 ≠ v) : mapLookup m v = Val.missing := by
  cases v with
  | str s =>
    have hf : m.find? (fun p => p.1 == s) = none := by
      rw [List.find?_eq_none]
      intro p hp
      simp only [beq_iff_eq]
      intro hc
      exact hv p hp (by rw [hc])
    simp only [mapLookup, hf]
  | num q => rfl
  | missing => rfl

/-! ### Claim C1 -/

/-- C1: for every input record set, `create_features` replaces the three
ordinal columns by the fixed integer codes (sleep_quality: poor=0,
average=1, good=2; facility_rating: low=0, medium=1, high=2;
exam_difficulty: easy=0, moderate=1, hard=2), and every cell whose value
is not a key of the corresponding mapping becomes the missing marker,
never a numeric code. -/
theorem claim1_ordinal_encoding (df df' : DF) (i : Nat) (v1 v2 v3 : Val)
    (hok : create_features df = Except.ok df') (hi : i < df.rows.length)
    (hv1 : ∀ p ∈ sleep_quality_mapping, Val.str p.1 ≠ v1)
    (hv2 : ∀ p ∈ facility_rating_mapping, Val.str p.1 ≠ v2)
    (hv3 : ∀ p ∈ exam_difficulty_mapping, Val.str p.1 ≠ v3) :
    rowGet (df'.rows.getD i []) "sleep_quality"
        = mapLookup sleep_quality_mapping (rowGet (df.rows.getD i []) "sleep_quality")
    ∧ rowGet (df'.rows.getD i []) "facility_rating"
        = mapLookup facility_rating_mapping (rowGet (df.rows.getD i []) "facility_rating")
    ∧ rowGet (df'.rows.getD i []) "exam_difficulty"
        = mapLookup exam_difficulty_mapping (rowGet (df.rows.getD i []) "exam_difficulty")
    ∧ mapLookup sleep_quality_mapping (Val.str "poor") = Val.num 0
    ∧ mapLookup sleep_quality_mapping (Val.str "average") = Val.num 1
    ∧ mapLookup sleep_quality_mapping (Val.str "good") = Val.num 2
    ∧ mapLookup facility_rating_mapping (Val.str "low") = Val.num 0
    ∧ mapLookup facility_rating_mapping (Val.str "medium") = Val.num 1
    ∧ mapLookup facility_rating_mapping (Val.str "high") = Val.num 2
    ∧ mapLookup exam_difficulty_mapping (Val.str "easy") = Val.num 0
    ∧ mapLookup exam_difficulty_mapping (Val.str "moderate") = Val.num 1
    ∧ mapLookup exam_difficulty_mapping (Val.str "hard") = Val.num 2
    ∧ mapLookup sleep_quality_mapping v1 = Val.missing
    ∧ mapLookup facility_rating_mapping v2 = Val.missing
    ∧ mapLookup exam_difficulty_mapping v3 = Val.missing := by
  have hr := create_features_rows hok
  have hrow : df'.rows.getD i [] = featuredRow df (df.rows.getD i []) := by
    rw [hr]
    exact getD_map_rows hi
  refine ⟨?_, ?_, ?_, by decide, by decide, by decide, by decide, by decide, by decide,
    by decide, by decide, by decide,
    mapLookup_eq_missing _ _ hv1, mapLookup_eq_missing _ _ hv2, mapLookup_eq_missing _ _ hv3⟩
  · rw [hrow, rowGet_featuredRow_sq]
  · rw [hrow, rowGet_featuredRow_fr]
  · rw [hrow, rowGet_featuredRow_ed]

/-! ### Concrete frames used by the witnesses -/

/-- Column list of the concrete well-formed example frame. -/
def wCols : List String :=
  ["id", "gender", "course", "internet_access", "study_method", "sleep_quality",
   "facility_rating", "exam_difficulty", "study_hours", "class_attendance", "sleep_hours"]

/-- First example row (study_hours = 0, all ordinal values mapped). -/
def wRow1 : Row :=
  [("id", .num 1), ("gender", .str "female"), ("course", .str "math"),
   ("internet_access", .str "yes"), ("study_method", .str "solo"),
   ("sleep_quality", .str "poor"), ("facility_rating", .str "high"),
   ("exam_difficulty", .str "easy"), ("study_hours", .num 0),
   ("class_attendance", .num 10), ("sleep_hours", .num 8)]

/-- Second example row (unmapped ordinal value "excellent"). -/
def wRow2 : Row :=
  [("id", .num 2), ("gender", .str "male"), ("course", .str "math"),
   ("internet_access", .str "no"), ("study_method", .str "group"),
   ("sleep_quality", .str "excellent"), ("facility_rating", .str "low"),
   ("exam_difficulty", .str "hard"), ("study_hours", .num 2),
   ("class_attendance", .num 50), ("sleep_hours", .num 7)]

/-- The concrete example frame. -/
def wDF : DF := ⟨wCols, [wRow1, wRow2]⟩

/-- The output of `create_features` on the example frame, written out. -/
def wOut : DF :=
  ⟨["id", "sleep_quality", "facility_rating", "exam_difficulty", "study_hours",
    "class_attendance", "sleep_hours", "gender_male", "internet_access_yes",
    "study_method_solo", "study_efficiency", "study_sleep_interaction", "study_hours_sq",
    "class_attendance_sq"],
   [[("id", .num 1), ("sleep_quality", .num 0), ("facility_rating", .num 2),
     ("exam_difficulty", .num 0), ("study_hours", .num 0), ("class_attendance", .num 10),
     ("sleep_hours", .num 8), ("gender_male", .num 0), ("internet_access_yes", .num 1),
     ("study_method_solo", .num 1), ("study_efficiency", .num 10000000),
     ("study_sleep_interaction", .num 0), ("study_hours_sq", .num 0),
     ("class_attendance_sq", .num 100)],
    [("id", .num 2), ("sleep_quality", .missing), ("facility_rating", .num 0),
     ("exam_difficulty", .num 2), ("study_hours", .num 2), ("class_attendance", .num 50),
     ("sleep_hours", .num 7), ("gender_male", .num 1), ("internet_access_yes", .num 0),
     ("study_method_solo", .num 0), ("study_efficiency", .num (50000000 / 2000001)),
     ("study_sleep_interaction", .num 14), ("study_hours_sq", .num 4),
     ("class_attendance_sq", .num 2500)]]⟩

unseal Rat.mul Rat.inv Rat.add in
/-- Witness for C1: the example frame, row 1, with unmapped probes. -/
theorem claim1_witness :
    (create_features wDF = Except.ok wOut ∧ 1 < wDF.rows.length
      ∧ (∀ p ∈ sleep_quality_mapping, Val.str p.1 ≠ Val.str "excellent")
      ∧ (∀ p ∈ facility_rating_mapping, Val.str p.1 ≠ Val.num 3)
      ∧ (∀ p ∈ exam_difficulty_mapping, Val.str p.1 ≠ Val.missing))
    ∧ (rowGet (wOut.rows.getD 1 []) "sleep_quality"
          = mapLookup sleep_quality_mapping (rowGet (wDF.rows.getD 1 []) "sleep_quality")
      ∧ rowGet (wOut.rows.getD 1 []) "facility_rating"
          = mapLookup facility_rating_mapping (rowGet (wDF.rows.getD 1 []) "facility_rating")
      ∧ rowGet (wOut.rows.getD 1 []) "exam_difficulty"
          = mapLookup exam_difficulty_mapping (rowGet (wDF.rows.getD 1 []) "exam_difficulty")
      ∧ mapLookup sleep_quality_mapping (Val.str "poor") = Val.num 0
      ∧ mapLookup sleep_quality_mapping (Val.str "average") = Val.num 1
      ∧ mapLookup sleep_quality_mapping (Val.str "good") = Val.num 2
      ∧ mapLookup facility_rating_mapping (Val.str "low") = Val.num 0
      ∧ mapLookup facility_rating_mapping (Val.str "medium") = Val.num 1
      ∧ mapLookup facility_rating_mapping (Val.str "high") = Val.num 2
      ∧ mapLookup exam_difficulty_mapping (Val.str "easy") = Val.num 0
      ∧ mapLookup exam_difficulty_mapping (Val.str "moderate") = Val.num 1
      ∧ mapLookup exam_difficulty_mapping (Val.str "hard") = Val.num 2
      ∧ mapLookup sleep_quality_mapping (Val.str "excellent") = Val.missing
      ∧ mapLookup facility_rating_mapping (Val.num 3) = Val.missing
      ∧ mapLookup exam_difficulty_mapping Val.missing = Val.missing) := by
  have hok : create_features wDF = Except.ok wOut := by decide
  have hi : 1 < wDF.rows.length := by decide
  have hv1 : ∀ p ∈ sleep_quality_mapping, Val.str p.1 ≠ Val.str "excellent" := by decide
  have hv2 : ∀ p ∈ facility_rating_mapping, Val.str p.1 ≠ Val.num 3 := by decide
  have hv3 : ∀ p ∈ exam_difficulty_mapping, Val.str p.1 ≠ Val.missing := by decide
  exact ⟨⟨hok, hi, hv1, hv2, hv3⟩,
    claim1_ordinal_encoding wDF wOut 1 (Val.str "excellent") (Val.num 3) Val.missing
      hok hi hv1 hv2 hv3⟩

/-! ### Pipeline plumbing -/

theorem take_len_append {α : Type} (A B : List α) : (A ++ B).take A.length = A := by
  induction A with
  | nil => rfl
  | cons a A ih => simp [ih]

theorem drop_len_append {α : Type} (A B : List α) : (A ++ B).drop A.length = B := by
  induction A with
  | nil => rfl
  | cons a A ih => simp [ih]

theorem zip_map_same {α β γ : Type} (l : List α) (f : α → β) (g : α → γ) :
    (l.map f).zip (l.map g) = l.map (fun a => (f a, g a)) := by
  induction l with
  | nil => rfl
  | cons a l ih => simp [ih]

theorem getColVals_ok {df : DF} {c : String} {vals : List Val}
    (h : getColVals df c = .ok vals) :
    c ∈ df.cols ∧ vals = df.rows.map (fun r => rowGet r c) := by
  by_cases hc : c ∈ df.cols
  · rw [getColVals, if_pos hc, Except.ok.injEq] at h
    exact ⟨hc, h.symm⟩
  · rw [getColVals, if_neg hc] at h
    exact absurd h (by simp)

/-- The train frame with the label column dropped, as `dropCol` produces
it. -/
def trainPart (df : DF) : DF :=
  ⟨df.cols.filter (fun x => !(x == "exam_score")),
   df.rows.map (fun r => r.filter (fun p => !(p.1 == "exam_score")))⟩

theorem dropCol_ok {df df' : DF} {c : String} (h : dropCol df c = .ok df') :
    c ∈ df.cols ∧ df' = ⟨df.cols.filter (fun x => !(x == c)),
      df.rows.map (fun r => r.filter (fun p => !(p.1 == c)))⟩ := by
  by_cases hc : c ∈ df.cols
  · rw [dropCol, if_pos hc, Except.ok.injEq] at h
    exact ⟨hc, h.symm⟩
  · rw [dropCol, if_neg hc] at h
    exact absurd h (by simp)

theorem setColValsE_ok {df df' : DF} {c : String} {vals : List Val}
    (h : setColValsE df c vals = .ok df') :
    df.rows.length = vals.length ∧
      df' = ⟨if c ∈ df.cols then df.cols else df.cols ++ [c],
             (df.rows.zip vals).map (fun rv => rowSet rv.1 c rv.2)⟩ := by
  by_cases hl : df.rows.length = vals.length
  · rw [setColValsE, if_pos hl, Except.ok.injEq] at h
    exact ⟨hl, h.symm⟩
  · rw [setColValsE, if_neg hl] at h
    exact absurd h (by simp)

theorem runPipeline_parts {train test trf tef : DF}
    (h : runPipeline train test = .ok (trf, tef)) :
    ∃ featured : DF,
      "exam_score" ∈ train.cols
      ∧ create_features (concatDF (trainPart train) test) = .ok featured
      ∧ trf = ⟨if "exam_score" ∈ featured.cols then featured.cols
               else featured.cols ++ ["exam_score"],
              ((featured.rows.take train.rows.length).zip
                  (train.rows.map (fun r => rowGet r "exam_score"))).map
                (fun rv => rowSet rv.1 "exam_score" rv.2)⟩
      ∧ tef = ⟨featured.cols, featured.rows.drop train.rows.length⟩
      ∧ (featured.rows.take train.rows.length).length = train.rows.length := by
  rw [runPipeline] at h
  rw [except_bind_ok] at h
  obtain ⟨target, hT, h⟩ := h
  rw [except_bind_ok] at h
  obtain ⟨train_p, hP, h⟩ := h
  rw [except_bind_ok] at h
  obtain ⟨featured, hF, h⟩ := h
  rw [except_bind_ok] at h
  obtain ⟨train_out, hO, h⟩ := h
  have hpure : (pure (train_out, (⟨featured.cols,
      featured.rows.drop train.rows.length⟩ : DF)) : Except String (DF × DF))
      = Except.ok (train_out, ⟨featured.cols, featured.rows.drop train.rows.length⟩) := rfl
  rw [hpure, Except.ok.injEq, Prod.mk.injEq] at h
  obtain ⟨h1, h2⟩ := h
  obtain ⟨hesc, hTrg⟩ := getColVals_ok hT
  subst hTrg
  obtain ⟨-, hPP⟩ := dropCol_ok hP
  subst hPP
  obtain ⟨hlen, hOO⟩ := setColValsE_ok hO
  subst hOO
  refine ⟨featured, hesc, hF, ?_, h2.symm, ?_⟩
  · rw [← h1]
  · rw [List.length_map] at hlen
    exact hlen

theorem take_len_append' {α : Type} (A B : List α) (n : Nat) (h : A.length = n) :
    (A ++ B).take n = A := by
  subst h
  exact take_len_append A B

theorem drop_len_append' {α : Type} (A B : List α) (n : Nat) (h : A.length = n) :
    (A ++ B).drop n = B := by
  subst h
  exact drop_len_append A B

theorem featured_take_drop {trainP test featured : DF}
    (hF : create_features (concatDF trainP test) = .ok featured) :
    featured.rows.take trainP.rows.length
        = trainP.rows.map (fun r => featuredRow (concatDF trainP test)
            (alignRow (concatDF trainP test).cols r))
    ∧ featured.rows.drop trainP.rows.length
        = test.rows.map (fun r => featuredRow (concatDF trainP test)
            (alignRow (concatDF trainP test).cols r)) := by
  have hr := create_features_rows hF
  have hc : (concatDF trainP test).rows
      = trainP.rows.map (alignRow (concatDF trainP test).cols)
        ++ test.rows.map (alignRow (concatDF trainP test).cols) := by
    dsimp [concatDF]
    rw [List.map_append]
  rw [hr, hc, List.map_append, List.map_map, List.map_map]
  constructor
  · apply take_len_append'
    rw [List.length_map]
  · apply drop_len_append'
    rw [List.length_map]

/-! ### Claim C4 -/

/-- C4: `create_features` preserves the number and order of rows (each
output row is the image of the input row at the same index), and the same
holds end to end through the pipeline for both the train and the test
partitions. -/
theorem claim4_row_preservation (df df' train test trf tef : DF)
    (hok : create_features df = Except.ok df')
    (hpk : runPipeline train test = Except.ok (trf, tef)) :
    df'.rows.length = df.rows.length
    ∧ df'.rows = df.rows.map (featuredRow df)
    ∧ trf.rows.length = train.rows.length
    ∧ tef.rows.length = test.rows.length
    ∧ trf.rows = train.rows.map (fun r =>
        rowSet (featuredRow (concatDF (trainPart train) test)
            (alignRow (concatDF (trainPart train) test).cols
              (r.filter (fun p => !(p.1 == "exam_score")))))
          "exam_score" (rowGet r "exam_score"))
    ∧ tef.rows = test.rows.map (fun r =>
        featuredRow (concatDF (trainPart train) test)
          (alignRow (concatDF (trainPart train) test).cols r)) := by
  have hA := create_features_rows hok
  obtain ⟨featured, hesc, hF, hTrf, hTef, hLen⟩ := runPipeline_parts hpk
  have hplen : (trainPart train).rows.length = train.rows.length := by
    dsimp [trainPart]
    rw [List.length_map]
  obtain ⟨htake, hdrop⟩ := featured_take_drop hF
  rw [hplen] at htake hdrop
  have htake' : featured.rows.take train.rows.length
      = train.rows.map (fun r =>
          featuredRow (concatDF (trainPart train) test)
            (alignRow (concatDF (trainPart train) test).cols
              (r.filter (fun p => !(p.1 == "exam_score"))))) := by
    rw [htake]
    show ((train.rows.map (fun r => r.filter (fun p => !(p.1 == "exam_score")))).map _) = _
    rw [List.map_map]
    rfl
  have htef : tef.rows = test.rows.map (fun r =>
      featuredRow (concatDF (trainPart train) test)
        (alignRow (concatDF (trainPart train) test).cols r)) := by
    rw [hTef]
    exact hdrop
  have htrf : trf.rows = train.rows.map (fun r =>
      rowSet (featuredRow (concatDF (trainPart train) test)
          (alignRow (concatDF (trainPart train) test).cols
            (r.filter (fun p => !(p.1 == "exam_score")))))
        "exam_score" (rowGet r "exam_score")) := by
    rw [hTrf]
    show (((featured.rows.take train.rows.length).zip
        (train.rows.map (fun r => rowGet r "exam_score"))).map
          (fun rv => rowSet rv.1 "exam_score" rv.2)) = _
    rw [htake', zip_map_same, List.map_map]
    rfl
  refine ⟨by rw [hA, List.length_map], hA, ?_, ?_, htrf, htef⟩
  · rw [htrf, List.length_map]
  · rw [htef, List.length_map]

/-! ### Claim C6 -/

/-- C6: splitting the featured concatenation of the label-free train part
and the test part at the original train row count reproduces the original
partition: the first slice consists exactly of the featured train rows and
the second exactly of the featured test rows (same count, same order, no
row crossing the boundary), and both slices carry the same column set
before the label is reattached. -/
theorem claim6_concat_split (trainP test featured : DF)
    (hok : create_features (concatDF trainP test) = Except.ok featured) :
    featured.rows.take trainP.rows.length
        = trainP.rows.map (fun r => featuredRow (concatDF trainP test)
            (alignRow (concatDF trainP test).cols r))
    ∧ featured.rows.drop trainP.rows.length
        = test.rows.map (fun r => featuredRow (concatDF trainP test)
            (alignRow (concatDF trainP test).cols r))
    ∧ featured.rows.length = trainP.rows.length + test.rows.length
    ∧ (DF.mk featured.cols (featured.rows.take trainP.rows.length)).cols
        = (DF.mk featured.cols (featured.rows.drop trainP.rows.length)).cols := by
  obtain ⟨h1, h2⟩ := featured_take_drop hok
  refine ⟨h1, h2, ?_, rfl⟩
  rw [create_features_rows hok]
  dsimp [concatDF]
  rw [List.length_map, List.length_map, List.length_append]

/-- Columns of the example raw train frame; the label sits in the second
position, not at the end. -/
def wTrainCols : List String :=
  ["id", "exam_score", "gender", "course", "internet_access", "study_method",
   "sleep_quality", "facility_rating", "exam_difficulty", "study_hours",
   "class_attendance", "sleep_hours"]

/-- First train row. -/
def wTRow1 : Row :=
  [("id", .num 1), ("exam_score", .num 70), ("gender", .str "female"),
   ("course", .str "math"), ("internet_access", .str "yes"), ("study_method", .str "solo"),
   ("sleep_quality", .str "poor"), ("facility_rating", .str "high"),
   ("exam_difficulty", .str "easy"), ("study_hours", .num 0),
   ("class_attendance", .num 10), ("sleep_hours", .num 8)]

/-- Second train row. -/
def wTRow2 : Row :=
  [("id", .num 2), ("exam_score", .num 85), ("gender", .str "male"),
   ("course", .str "math"), ("internet_access", .str "no"), ("study_method", .str "group"),
   ("sleep_quality", .str "good"), ("facility_rating", .str "low"),
   ("exam_difficulty", .str "hard"), ("study_hours", .num 2),
   ("class_attendance", .num 50), ("sleep_hours", .num 7)]

/-- The example raw train frame. -/
def wTrain : DF := ⟨wTrainCols, [wTRow1, wTRow2]⟩

/-- The single test row; `course` has a category unseen in train. -/
def wERow1 : Row :=
  [("id", .num 3), ("gender", .str "female"), ("course", .str "art"),
   ("internet_access", .str "yes"), ("study_method", .str "group"),
   ("sleep_quality", .str "average"), ("facility_rating", .str "medium"),
   ("exam_difficulty", .str "moderate"), ("study_hours", .num 4),
   ("class_attendance", .num 80), ("sleep_hours", .num 6)]

/-- The example raw test frame. -/
def wTest : DF := ⟨wCols, [wERow1]⟩

/-- Featured output row for train row 1 (label not yet reattached). -/
def wFRow1 : Row :=
  [("id", .num 1), ("sleep_quality", .num 0), ("facility_rating", .num 2),
   ("exam_difficulty", .num 0), ("study_hours", .num 0), ("class_attendance", .num 10),
   ("sleep_hours", .num 8), ("gender_male", .num 0), ("course_math", .num 1),
   ("internet_access_yes", .num 1), ("study_method_solo", .num 1),
   ("study_efficiency", .num 10000000), ("study_sleep_interaction", .num 0),
   ("study_hours_sq", .num 0), ("class_attendance_sq", .num 100)]

/-- Featured output row for train row 2 (label not yet reattached). -/
def wFRow2 : Row :=
  [("id", .num 2), ("sleep_quality", .num 2), ("facility_rating", .num 0),
   ("exam_difficulty", .num 2), ("study_hours", .num 2), ("class_attendance", .num 50),
   ("sleep_hours", .num 7), ("gender_male", .num 1), ("course_math", .num 1),
   ("internet_access_yes", .num 0), ("study_method_solo", .num 0),
   ("study_efficiency", .num (50000000 / 2000001)), ("study_sleep_interaction", .num 14),
   ("study_hours_sq", .num 4), ("class_attendance_sq", .num 2500)]

/-- Featured output row for the test row. -/
def wFRow3 : Row :=
  [("id", .num 3), ("sleep_quality", .num 1), ("facility_rating", .num 1),
   ("exam_difficulty", .num 1), ("study_hours", .num 4), ("class_attendance", .num 80),
   ("sleep_hours", .num 6), ("gender_male", .num 0), ("course_math", .num 0),
   ("internet_access_yes", .num 1), ("study_method_solo", .num 0),
   ("study_efficiency", .num (80000000 / 4000001)), ("study_sleep_interaction", .num 24),
   ("study_hours_sq", .num 16), ("class_attendance_sq", .num 6400)]

/-- Column list of the featured combined frame. -/
def wFCols : List String :=
  ["id", "sleep_quality", "facility_rating", "exam_difficulty", "study_hours",
   "class_attendance", "sleep_hours", "gender_male", "course_math", "internet_access_yes",
   "study_method_solo", "study_efficiency", "study_sleep_interaction", "study_hours_sq",
   "class_attendance_sq"]

/-- The featured combined frame of the example pipeline run. -/
def wFeat : DF := ⟨wFCols, [wFRow1, wFRow2, wFRow3]⟩

/-- The train output of the example pipeline run. -/
def wTrainOut : DF :=
  ⟨wFCols ++ ["exam_score"],
   [wFRow1 ++ [("exam_score", .num 70)], wFRow2 ++ [("exam_score", .num 85)]]⟩

/-- The test output of the example pipeline run. -/
def wTestOut : DF := ⟨wFCols, [wFRow3]⟩

unseal Rat.mul Rat.inv Rat.add in
/-- Witness for C4 at the example frames. -/
theorem claim4_witness :
    (create_features wDF = Except.ok wOut
      ∧ runPipeline wTrain wTest = Except.ok (wTrainOut, wTestOut))
    ∧ (wOut.rows.length = wDF.rows.length
      ∧ wOut.rows = wDF.rows.map (featuredRow wDF)
      ∧ wTrainOut.rows.length = wTrain.rows.length
      ∧ wTestOut.rows.length = wTest.rows.length
      ∧ wTrainOut.rows = wTrain.rows.map (fun r =>
          rowSet (featuredRow (concatDF (trainPart wTrain) wTest)
              (alignRow (concatDF (trainPart wTrain) wTest).cols
                (r.filter (fun p => !(p.1 == "exam_score")))))
            "exam_score" (rowGet r "exam_score"))
      ∧ wTestOut.rows = wTest.rows.map (fun r =>
          featuredRow (concatDF (trainPart wTrain) wTest)
            (alignRow (concatDF (trainPart wTrain) wTest).cols r))) := by
  have hok : create_features wDF = Except.ok wOut := by decide
  have hpk : runPipeline wTrain wTest = Except.ok (wTrainOut, wTestOut) := by decide
  exact ⟨⟨hok, hpk⟩, claim4_row_preservation wDF wOut wTrain wTest wTrainOut wTestOut hok hpk⟩

unseal Rat.mul Rat.inv Rat.add in
/-- Witness for C6 at the example frames. -/
theorem claim6_witness :
    (create_features (concatDF (trainPart wTrain) wTest) = Except.ok wFeat)
    ∧ (wFeat.rows.take (trainPart wTrain).rows.length
          = (trainPart wTrain).rows.map (fun r =>
              featuredRow (concatDF (trainPart wTrain) wTest)
                (alignRow (concatDF (trainPart wTrain) wTest).cols r))
      ∧ wFeat.rows.drop (trainPart wTrain).rows.length
          = wTest.rows.map (fun r =>
              featuredRow (concatDF (trainPart wTrain) wTest)
                (alignRow (concatDF (trainPart wTrain) wTest).cols r))
      ∧ wFeat.rows.length = (trainPart wTrain).rows.length + wTest.rows.length
      ∧ (DF.mk wFeat.cols (wFeat.rows.take (trainPart wTrain).rows.length)).cols
          = (DF.mk wFeat.cols (wFeat.rows.drop (trainPart wTrain).rows.length)).cols) := by
  have hok : create_features (concatDF (trainPart wTrain) wTest) = Except.ok wFeat := by
    decide
  exact ⟨hok, claim6_concat_split (trainPart wTrain) wTest wFeat hok⟩

/-! ### Claim C7 -/

/-- C7: on a row with `study_hours = 0`, the epsilon in the denominator
makes `study_efficiency` the exact finite quotient
`class_attendance / 1e-6` (equal to `class_attendance * 10^6`), a proper
number rather than an infinity or NaN, because the denominator `0 + 1e-6`
is nonzero. -/
theorem claim7_efficiency_at_zero (df df' : DF) (i : Nat) (a : ℚ)
    (hok : create_features df = Except.ok df') (hi : i < df.rows.length)
    (hsh : rowGet (df.rows.getD i []) "study_hours" = Val.num 0)
    (hca : rowGet (df.rows.getD i []) "class_attendance" = Val.num a) :
    rowGet (df'.rows.getD i []) "study_efficiency" = Val.num (a / epsilon)
    ∧ a / epsilon = a * 1000000
    ∧ epsilon ≠ 0 := by
  have hrow : df'.rows.getD i [] = featuredRow df (df.rows.getD i []) := by
    rw [create_features_rows hok]
    exact getD_map_rows hi
  have heps : (0 : ℚ) + epsilon ≠ 0 := by norm_num [epsilon]
  refine ⟨?_, ?_, by norm_num [epsilon]⟩
  · rw [hrow, featuredRow, rowGet_derivRow_se,
      rowGet_dumRow_of _ _ _ (by decide) (not_mem_dummy_names _ _ (by decide)),
      rowGet_dumRow_of _ _ _ (by decide) (not_mem_dummy_names _ _ (by decide)),
      rowGet_encRow_of_ne _ _ (by decide) (by decide) (by decide),
      rowGet_encRow_of_ne _ _ (by decide) (by decide) (by decide), hca, hsh]
    simp only [Val.add, Val.div]
    rw [if_neg heps, zero_add]
  · rw [epsilon, one_div, div_eq_mul_inv, inv_inv]

unseal Rat.mul Rat.inv Rat.add in
/-- Witness for C7: the example frame, row 0, `study_hours = 0`,
`class_attendance = 10`. -/
theorem claim7_witness :
    (create_features wDF = Except.ok wOut ∧ 0 < wDF.rows.length
      ∧ rowGet (wDF.rows.getD 0 []) "study_hours" = Val.num 0
      ∧ rowGet (wDF.rows.getD 0 []) "class_attendance" = Val.num 10)
    ∧ (rowGet (wOut.rows.getD 0 []) "study_efficiency" = Val.num (10 / epsilon)
      ∧ (10 : ℚ) / epsilon = 10 * 1000000
      ∧ epsilon ≠ 0) := by
  have hok : create_features wDF = Except.ok wOut := by decide
  have hi : 0 < wDF.rows.length := by decide
  have hsh : rowGet (wDF.rows.getD 0 []) "study_hours" = Val.num 0 := by decide
  have hca : rowGet (wDF.rows.getD 0 []) "class_attendance" = Val.num 10 := by decide
  exact ⟨⟨hok, hi, hsh, hca⟩, claim7_efficiency_at_zero wDF wOut 0 10 hok hi hsh hca⟩

/-! ### Claim C8 -/

theorem ok_bind {α β : Type} (a : α) (f : α → Except String β) :
    (Except.ok a >>= f : Except String β) = f a := rfl

theorem error_bind {α β : Type} (e : String) (f : α → Except String β) :
    (Except.error e >>= f : Except String β) = Except.error e := rfl

theorem firstMissing_eq_none_iff (cols l : List String) :
    firstMissing cols l = none ↔ ∀ x ∈ l, x ∈ cols := by
  induction l with
  | nil => simp [firstMissing]
  | cons c cs ih =>
    by_cases hc : c ∈ cols
    · simp [firstMissing, hc, ih]
    · simp [firstMissing, hc]

theorem mem_dumStage_cols_iff (cols : List String) (d : DF) (x : String)
    (hq : nominal_cols.contains x = false)
    (hx : ∀ c ∈ nominal_cols, x.data.take ((c ++ "_").data.length) ≠ (c ++ "_").data) :
    (x ∈ cols.filter (fun c => !(nominal_cols.contains c))
        ++ nominal_cols.flatMap (dummyNamesFor d)) ↔ x ∈ cols := by
  rw [List.mem_append, List.mem_filter]
  constructor
  · rintro (hm | hm)
    · exact hm.1
    · exact absurd hm (not_mem_dummy_names d x hx)
  · intro hm
    exact Or.inl ⟨hm, by rw [hq]; rfl⟩

set_option maxHeartbeats 1600000 in
/-- C8: an input record set that lacks one of the required source columns
makes `create_features` fail with a `KeyError` naming a missing required
column (the first one the code touches), rather than silently proceeding
or producing a partial result. -/
theorem claim8_missing_column (df : DF) (c0 : String)
    (hc0 : c0 ∈ requiredCols) (hmiss : c0 ∉ df.cols) :
    create_features df
        = Except.error ("KeyError: " ++ (firstMissing df.cols requiredCols).getD "")
    ∧ (firstMissing df.cols requiredCols).getD "" ∈ requiredCols
    ∧ (firstMissing df.cols requiredCols).getD "" ∉ df.cols := by
  have t_ca := fun (cols : List String) (d : DF) =>
    mem_dumStage_cols_iff cols d "class_attendance" (by decide) (by decide)
  have t_sh := fun (cols : List String) (d : DF) =>
    mem_dumStage_cols_iff cols d "study_hours" (by decide) (by decide)
  have t_slh := fun (cols : List String) (d : DF) =>
    mem_dumStage_cols_iff cols d "sleep_hours" (by decide) (by decide)
  by_cases h1 : "sleep_quality" ∈ df.cols
  · by_cases h2 : "facility_rating" ∈ df.cols
    · by_cases h3 : "exam_difficulty" ∈ df.cols
      · by_cases h4 : "gender" ∈ df.cols
        · by_cases h5 : "course" ∈ df.cols
          · by_cases h6 : "internet_access" ∈ df.cols
            · by_cases h7 : "study_method" ∈ df.cols
              · by_cases h8 : "class_attendance" ∈ df.cols
                · by_cases h9 : "study_hours" ∈ df.cols
                  · by_cases h10 : "sleep_hours" ∈ df.cols
                    · exfalso
                      have hall : ∀ x ∈ requiredCols, x ∈ df.cols := by
                        intro x hx
                        simp [requiredCols] at hx
                        rcases hx with rfl | rfl | rfl | rfl | rfl | rfl | rfl | rfl | rfl | rfl
                        · exact h1
                        · exact h2
                        · exact h3
                        · exact h4
                        · exact h5
                        · exact h6
                        · exact h7
                        · exact h8
                        · exact h9
                        · exact h10
                      exact hmiss (hall c0 hc0)
                    · have hfm : firstMissing df.cols requiredCols = some "sleep_hours" := by
                        simp [requiredCols, firstMissing, h1, h2, h3, h4, h5, h6, h7, h8,
                          h9, h10]
                      rw [hfm]
                      refine ⟨?_, by decide, h10⟩
                      have hnm : firstMissing df.cols nominal_cols = none := by
                        simp [nominal_cols, firstMissing, h4, h5, h6, h7]
                      simp only [create_features]
                      rw [mapCol, if_pos h1]
                      simp only [ok_bind]
                      rw [mapCol, if_pos h2]
                      simp only [ok_bind]
                      rw [mapCol, if_pos h3]
                      simp only [ok_bind]
                      rw [getDummies]
                      simp only [hnm]
                      simp only [ok_bind]
                      rw [assign2]
                      simp only [t_ca, t_sh]
                      rw [if_pos h8, if_pos h9]
                      simp only [ok_bind]
                      rw [assign2]
                      simp only [mem_ite_append, t_sh, t_slh]
                      rw [if_pos (Or.inl h9)]
                      rw [if_neg (show ¬("sleep_hours" ∈ df.cols
                          ∨ "sleep_hours" = "study_efficiency") by
                        rintro (hm | hm)
                        · exact h10 hm
                        · exact absurd hm (by decide))]
                      simp only [error_bind]
                      rfl
                  · have hfm : firstMissing df.cols requiredCols = some "study_hours" := by
                      simp [requiredCols, firstMissing, h1, h2, h3, h4, h5, h6, h7, h8, h9]
                    rw [hfm]
                    refine ⟨?_, by decide, h9⟩
                    have hnm : firstMissing df.cols nominal_cols = none := by
                      simp [nominal_cols, firstMissing, h4, h5, h6, h7]
                    simp only [create_features]
                    rw [mapCol, if_pos h1]
                    simp only [ok_bind]
                    rw [mapCol, if_pos h2]
                    simp only [ok_bind]
                    rw [mapCol, if_pos h3]
                    simp only [ok_bind]
                    rw [getDummies]
                    simp only [hnm]
                    simp only [ok_bind]
                    rw [assign2]
                    simp only [t_ca, t_sh]
                    rw [if_pos h8, if_neg h9]
                    simp only [error_bind]
                    rfl
                · have hfm : firstMissing df.cols requiredCols
                      = some "class_attendance" := by
                    simp [requiredCols, firstMissing, h1, h2, h3, h4, h5, h6, h7, h8]
                  rw [hfm]
                  refine ⟨?_, by decide, h8⟩
                  have hnm : firstMissing df.cols nominal_cols = none := by
                    simp [nominal_cols, firstMissing, h4, h5, h6, h7]
                  simp only [create_features]
                  rw [mapCol, if_pos h1]
                  simp only [ok_bind]
                  rw [mapCol, if_pos h2]
                  simp only [ok_bind]
                  rw [mapCol, if_pos h3]
                  simp only [ok_bind]
                  rw [getDummies]
                  simp only [hnm]
                  simp only [ok_bind]
                  rw [assign2]
                  simp only [t_ca]
                  rw [if_neg h8]
                  simp only [error_bind]
                  rfl
              · have hfm : firstMissing df.cols requiredCols = some "study_method" := by
                  simp [requiredCols, firstMissing, h1, h2, h3, h4, h5, h6, h7]
                rw [hfm]
                refine ⟨?_, by decide, h7⟩
                have hnm : firstMissing df.cols nominal_cols = some "study_method" := by
                  simp [nominal_cols, firstMissing, h4, h5, h6, h7]
                simp [create_features, mapCol, getDummies, h1, h2, h3, hnm, ok_bind,
                  error_bind]
            · have hfm : firstMissing df.cols requiredCols = some "internet_access" := by
                simp [requiredCols, firstMissing, h1, h2, h3, h4, h5, h6]
              rw [hfm]
              refine ⟨?_, by decide, h6⟩
              have hnm : firstMissing df.cols nominal_cols = some "internet_access" := by
                simp [nominal_cols, firstMissing, h4, h5, h6]
              simp [create_features, mapCol, getDummies, h1, h2, h3, hnm, ok_bind,
                error_bind]
          · have hfm : firstMissing df.cols requiredCols = some "course" := by
              simp [requiredCols, firstMissing, h1, h2, h3, h4, h5]
            rw [hfm]
            refine ⟨?_, by decide, h5⟩
            have hnm : firstMissing df.cols nominal_cols = some "course" := by
              simp [nominal_cols, firstMissing, h4, h5]
            simp [create_features, mapCol, getDummies, h1, h2, h3, hnm, ok_bind, error_bind]
        · have hfm : firstMissing df.cols requiredCols = some "gender" := by
            simp [requiredCols, firstMissing, h1, h2, h3, h4]
          rw [hfm]
          refine ⟨?_, by decide, h4⟩
          have hnm : firstMissing df.cols nominal_cols = some "gender" := by
            simp [nominal_cols, firstMissing, h4]
          simp [create_features, mapCol, getDummies, h1, h2, h3, hnm, ok_bind, error_bind]
      · have hfm : firstMissing df.cols requiredCols = some "exam_difficulty" := by
          simp [requiredCols, firstMissing, h1, h2, h3]
        rw [hfm]
        refine ⟨?_, by decide, h3⟩
        simp [create_features, mapCol, h1, h2, h3, ok_bind, error_bind]
    · have hfm : firstMissing df.cols requiredCols = some "facility_rating" := by
        simp [requiredCols, firstMissing, h1, h2]
      rw [hfm]
      refine ⟨?_, by decide, h2⟩
      simp [create_features, mapCol, h1, h2, ok_bind, error_bind]
  · have hfm : firstMissing df.cols requiredCols = some "sleep_quality" := by
      simp [requiredCols, firstMissing, h1]
    rw [hfm]
    refine ⟨?_, by decide, h1⟩
    simp [create_features, mapCol, h1, error_bind]

/-! ### Order facts about the category sort -/

theorem charListLe_refl (l : List Char) : charListLe l l = true := by
  induction l with
  | nil => rfl
  | cons a as ih =>
    rw [charListLe, if_neg (Nat.lt_irrefl _), if_neg (Nat.lt_irrefl _)]
    exact ih

theorem strLe_refl (a : String) : strLe a a = true := charListLe_refl a.data

theorem charListLe_total (a : List Char) : ∀ b : List Char,
    charListLe a b = true ∨ charListLe b a = true := by
  induction a with
  | nil => intro b; exact Or.inl rfl
  | cons x as ih =>
    intro b
    cases b with
    | nil => exact Or.inr rfl
    | cons y bs =>
      rcases Nat.lt_trichotomy x.toNat y.toNat with hl | he | hg
      · exact Or.inl (by rw [charListLe, if_pos hl])
      · rcases ih bs with h | h
        · exact Or.inl (by rw [charListLe, if_neg (by omega), if_neg (by omega)]; exact h)
        · exact Or.inr (by rw [charListLe, if_neg (by omega), if_neg (by omega)]; exact h)
      · exact Or.inr (by rw [charListLe, if_pos hg])

theorem strLe_total (a b : String) : strLe a b = true ∨ strLe b a = true :=
  charListLe_total a.data b.data

theorem charListLe_trans : ∀ {a b c : List Char},
    charListLe a b = true → charListLe b c = true → charListLe a c = true := by
  intro a
  induction a with
  | nil => intro b c h1 h2; rfl
  | cons x as ih =>
    intro b c h1 h2
    cases b with
    | nil => rw [charListLe] at h1; exact absurd h1 (by decide)
    | cons y bs =>
      cases c with
      | nil => rw [charListLe] at h2; exact absurd h2 (by decide)
      | cons z cs =>
        by_cases hxy : x.toNat < y.toNat
        · by_cases hyz : y.toNat < z.toNat
          · rw [charListLe, if_pos (by omega)]
          · by_cases hzy : z.toNat < y.toNat
            · rw [charListLe, if_neg hyz, if_pos hzy] at h2
              exact absurd h2 (by decide)
            · rw [charListLe, if_pos (by omega)]
        · by_cases hyx : y.toNat < x.toNat
          · rw [charListLe, if_neg hxy, if_pos hyx] at h1
            exact absurd h1 (by decide)
          · rw [charListLe, if_neg hxy, if_neg hyx] at h1
            by_cases hyz : y.toNat < z.toNat
            · rw [charListLe, if_pos (by omega)]
            · by_cases hzy : z.toNat < y.toNat
              · rw [charListLe, if_neg hyz, if_pos hzy] at h2
                exact absurd h2 (by decide)
              · rw [charListLe, if_neg hyz, if_neg hzy] at h2
                rw [charListLe, if_neg (by omega), if_neg (by omega)]
                exact ih h1 h2

theorem strLe_trans {a b c : String} (h1 : strLe a b = true) (h2 : strLe b c = true) :
    strLe a c = true :=
  charListLe_trans h1 h2

theorem insertStr_perm (x : String) (l : List String) : List.Perm (insertStr x l) (x :: l) := by
  induction l with
  | nil => exact List.Perm.refl _
  | cons y ys ih =>
    rw [insertStr]
    by_cases h : strLe x y = true
    · rw [if_pos h]
    · rw [if_neg h]
      exact (ih.cons y).trans (List.Perm.swap x y ys)

theorem sortStrs_perm (l : List String) : List.Perm (sortStrs l) l := by
  induction l with
  | nil => exact List.Perm.refl _
  | cons x xs ih =>
    rw [sortStrs]
    exact (insertStr_perm x (sortStrs xs)).trans (ih.cons x)

theorem pairwise_insertStr (x : String) (l : List String)
    (h : l.Pairwise (fun a b => strLe a b = true)) :
    (insertStr x l).Pairwise (fun a b => strLe a b = true) := by
  induction l with
  | nil => simp [insertStr]
  | cons y ys ih =>
    rw [insertStr]
    by_cases hxy : strLe x y = true
    · rw [if_pos hxy]
      refine List.Pairwise.cons ?_ h
      intro z hz
      rcases List.mem_cons.1 hz with rfl | hz
      · exact hxy
      · exact strLe_trans hxy (List.rel_of_pairwise_cons h hz)
    · rw [if_neg hxy]
      have hyx : strLe y x = true := (strLe_total x y).resolve_left hxy
      refine List.Pairwise.cons ?_ (ih (List.Pairwise.of_cons h))
      intro z hz
      have hz' := (insertStr_perm x ys).mem_iff.1 hz
      rcases List.mem_cons.1 hz' with rfl | hz''
      · exact hyx
      · exact List.rel_of_pairwise_cons h hz''

theorem pairwise_sortStrs (l : List String) :
    (sortStrs l).Pairwise (fun a b => strLe a b = true) := by
  induction l with
  | nil => exact List.Pairwise.nil
  | cons x xs ih =>
    rw [sortStrs]
    exact pairwise_insertStr x (sortStrs xs) ih

theorem sortStrs_head_le (l : List String) (b : String)
    (hb : (sortStrs l).head? = some b) :
    ∀ s ∈ sortStrs l, strLe b s = true := by
  intro s hs
  cases hl : sortStrs l with
  | nil => rw [hl] at hs; exact absurd hs (List.not_mem_nil s)
  | cons a t =>
    rw [hl] at hb
    have hab : a = b := by
      simpa using hb
    subst hab
    rw [hl] at hs
    rcases List.mem_cons.1 hs with rfl | hs
    · exact strLe_refl s
    · have hp := pairwise_sortStrs l
      rw [hl] at hp
      exact List.rel_of_pairwise_cons hp hs

theorem observedCats_encDF (df : DF) (c : String) (h5 : c ≠ "sleep_quality")
    (h6 : c ≠ "facility_rating") (h7 : c ≠ "exam_difficulty") :
    observedCats (encDF df) c = observedCats df c := by
  rw [observedCats, observedCats, encDF]
  show sortStrs ((List.filterMap _ (df.rows.map encRow)).dedup) = _
  rw [List.filterMap_map]
  have hfun : ((fun r => match rowGet r c with
        | Val.str s => some s
        | _ => none) ∘ encRow)
      = (fun r : Row => match rowGet r c with
        | Val.str s => some s
        | _ => none) := by
    funext r
    show (match rowGet (encRow r) c with
        | Val.str s => some s
        | _ => none) = _
    rw [rowGet_encRow_of_ne r c h5 h6 h7]
  rw [hfun]

theorem mem_observedCats_iff (df : DF) (c : String) (x : String) :
    x ∈ observedCats df c ↔ ∃ r ∈ df.rows, rowGet r c = Val.str x := by
  rw [observedCats, (sortStrs_perm _).mem_iff, List.mem_dedup, List.mem_filterMap]
  constructor
  · rintro ⟨r, hr, hm⟩
    refine ⟨r, hr, ?_⟩
    cases h : rowGet r c with
    | str u =>
      rw [h] at hm
      simp only [Option.some.injEq] at hm
      rw [hm]
    | num q => rw [h] at hm; exact absurd hm (by simp)
    | missing => rw [h] at hm; exact absurd hm (by simp)
  · rintro ⟨r, hr, hm⟩
    exact ⟨r, hr, by rw [hm]⟩

theorem countP_one_le_one (g : Val) : ∀ l : List String, l.Nodup →
    l.countP (fun v => (if g = Val.str v then Val.num 1 else Val.num 0) == Val.num 1) ≤ 1 := by
  intro l
  induction l with
  | nil => intro _; simp [List.countP_nil]
  | cons v vs ih =>
    intro hnd
    rw [List.countP_cons]
    by_cases hg : g = Val.str v
    · have hz : vs.countP
          (fun u => (if g = Val.str u then Val.num 1 else Val.num 0) == Val.num 1) = 0 := by
        rw [List.countP_eq_zero]
        intro u hu
        have hne : ¬ g = Val.str u := by
          rw [hg]
          intro hh
          have hvu : v = u := by
            injection hh
          exact (List.nodup_cons.1 hnd).1 (hvu ▸ hu)
        simp [hne]
      rw [hz, if_pos (by simp [hg])]
    · rw [if_neg (by simp [hg])]
      simpa using ih (List.nodup_cons.1 hnd).2

theorem all_zero_iff_cats (g : Val) (nameFn : String → String) (cats : List String)
    (b : String) (hnd : cats.Nodup) (hb : cats.head? = some b) :
    (((cats.drop 1).map
          (fun v => (nameFn v, if g = Val.str v then Val.num 1 else Val.num 0))).all
        (fun p => p.2 == Val.num 0) = true)
      ↔ (g = Val.str b ∨ g ∉ cats.map Val.str) := by
  cases cats with
  | nil => simp at hb
  | cons a t =>
    have hab : a = b := by simpa using hb
    subst hab
    simp only [List.drop_succ_cons, List.drop_zero]
    have hstep : ((t.map
          (fun v => (nameFn v, if g = Val.str v then Val.num 1 else Val.num 0))).all
        (fun p => p.2 == Val.num 0) = true) ↔ ∀ v ∈ t, ¬ g = Val.str v := by
      rw [List.all_eq_true]
      constructor
      · intro hall v hv hgv
        have hone := hall _ (List.mem_map_of_mem _ hv)
        rw [if_pos hgv] at hone
        exact absurd (show (Val.num 1 == Val.num 0) = true from hone) (by decide)
      · intro h x hx
        rw [List.mem_map] at hx
        obtain ⟨v, hv, rfl⟩ := hx
        show ((if g = Val.str v then Val.num 1 else Val.num 0) == Val.num 0) = true
        rw [if_neg (h v hv)]
        rfl
    rw [hstep]
    constructor
    · intro hall
      by_cases hg : g = Val.str a
      · exact Or.inl hg
      · refine Or.inr ?_
        intro hmem
        rw [List.mem_map] at hmem
        obtain ⟨u, hu, hgu⟩ := hmem
        rcases List.mem_cons.1 hu with rfl | hu'
        · exact hg hgu.symm
        · exact hall u hu' hgu.symm
    · intro h v hv
      rcases h with hg | hg
      · rw [hg]
        intro hh
        have hvb : a = v := by injection hh
        exact (List.nodup_cons.1 hnd).1 (hvb ▸ hv)
      · intro hh
        exact hg (by rw [hh]; exact List.mem_map_of_mem _ (List.mem_cons_of_mem _ hv))

/-! ### Claim C2 -/

/-- C2 (amended): for each nominal column with `k` observed distinct
string categories, `create_features` replaces it by exactly `k-1`
indicator columns, one per observed category except the lexically first
(the dropped baseline), named by joining the column name and the category;
in every row at most one of those indicators is `1`, and all of them are
`0` exactly when the row's value is the dropped baseline category or is
not an observed string category at all (for example a missing cell). -/
theorem claim2_one_hot_amended (df df' : DF) (c : String) (i : Nat)
    (s b t : String) (r0 : Row)
    (hok : create_features df = Except.ok df')
    (hfresh : ∀ d ∈ derivedNames, d ∉ df.cols)
    (hc : c ∈ nominal_cols) (hi : i < df.rows.length)
    (hs : s ∈ observedCats df c) (hb : (observedCats df c).head? = some b)
    (hr0 : r0 ∈ df.rows) (ht : rowGet r0 c = Val.str t) :
    (observedCats df c).Nodup
    ∧ (observedCats df c).length
        = ((df.rows.filterMap (fun r => match rowGet r c with
            | Val.str u => some u
            | _ => none)).dedup).length
    ∧ t ∈ observedCats df c
    ∧ strLe b s = true
    ∧ dummyNamesFor (encDF df) c
        = ((observedCats df c).drop 1).map (fun v => c ++ "_" ++ v)
    ∧ (dummyNamesFor (encDF df) c).length = (observedCats df c).length - 1
    ∧ df'.cols = df.cols.filter (fun x => !(nominal_cols.contains x))
        ++ dumNames (encDF df) ++ derivedNames
    ∧ df'.rows.getD i [] = derivRow (dumRow (encDF df) (encRow (df.rows.getD i [])))
    ∧ (dummyRowFor (encDF df) c (encRow (df.rows.getD i []))).countP
        (fun p => p.2 == Val.num 1) ≤ 1
    ∧ (((dummyRowFor (encDF df) c (encRow (df.rows.getD i []))).all
          (fun p => p.2 == Val.num 0) = true)
        ↔ (rowGet (df.rows.getD i []) c = Val.str b
            ∨ rowGet (df.rows.getD i []) c ∉ (observedCats df c).map Val.str)) := by
  have hc567 : c ≠ "sleep_quality" ∧ c ≠ "facility_rating" ∧ c ≠ "exam_difficulty" := by
    have hcc := hc
    simp only [nominal_cols, List.mem_cons, List.not_mem_nil, or_false] at hcc
    rcases hcc with rfl | rfl | rfl | rfl
    · exact ⟨by decide, by decide, by decide⟩
    · exact ⟨by decide, by decide, by decide⟩
    · exact ⟨by decide, by decide, by decide⟩
    · exact ⟨by decide, by decide, by decide⟩
  have henc : observedCats (encDF df) c = observedCats df c :=
    observedCats_encDF df c hc567.1 hc567.2.1 hc567.2.2
  have hnodup : (observedCats df c).Nodup := by
    rw [observedCats]
    exact (sortStrs_perm _).nodup_iff.2 (List.nodup_dedup _)
  have hgr : rowGet (encRow (df.rows.getD i [])) c = rowGet (df.rows.getD i []) c :=
    rowGet_encRow_of_ne _ _ hc567.1 hc567.2.1 hc567.2.2
  refine ⟨hnodup, ?_, (mem_observedCats_iff df c t).2 ⟨r0, hr0, ht⟩, ?_, ?_, ?_,
    create_features_cols_eq hok hfresh, ?_, ?_, ?_⟩
  · rw [observedCats]
    exact (sortStrs_perm _).length_eq
  · rw [observedCats] at hb hs
    exact sortStrs_head_le _ b hb s hs
  · rw [dummyNamesFor, henc]
  · rw [dummyNamesFor, henc, List.length_map, List.length_drop]
  · rw [create_features_rows hok, getD_map_rows hi]
    rfl
  · rw [dummyRowFor, henc]
    simp only [hgr]
    rw [List.countP_map]
    exact countP_one_le_one (rowGet (df.rows.getD i []) c) _
      (hnodup.sublist (List.drop_sublist 1 _))
  · rw [dummyRowFor, henc]
    simp only [hgr]
    exact all_zero_iff_cats (rowGet (df.rows.getD i []) c) (fun v => c ++ "_" ++ v)
      (observedCats df c) b hnodup hb

/-- Columns of the counterexample frame for the one-hot claim. -/
def c2Cols : List String :=
  ["gender", "course", "internet_access", "study_method", "sleep_quality",
   "facility_rating", "exam_difficulty", "study_hours", "class_attendance", "sleep_hours"]

/-- Row with gender `a`. -/
def c2Row1 : Row :=
  [("gender", .str "a"), ("course", .str "m"), ("internet_access", .str "y"),
   ("study_method", .str "s"), ("sleep_quality", .str "poor"),
   ("facility_rating", .str "low"), ("exam_difficulty", .str "easy"),
   ("study_hours", .num 1), ("class_attendance", .num 1), ("sleep_hours", .num 1)]

/-- Row with gender `b`. -/
def c2Row2 : Row :=
  [("gender", .str "b"), ("course", .str "m"), ("internet_access", .str "y"),
   ("study_method", .str "s"), ("sleep_quality", .str "poor"),
   ("facility_rating", .str "low"), ("exam_difficulty", .str "easy"),
   ("study_hours", .num 1), ("class_attendance", .num 1), ("sleep_hours", .num 1)]

/-- Row with a missing gender cell. -/
def c2Row3 : Row :=
  [("gender", .missing), ("course", .str "m"), ("internet_access", .str "y"),
   ("study_method", .str "s"), ("sleep_quality", .str "poor"),
   ("facility_rating", .str "low"), ("exam_difficulty", .str "easy"),
   ("study_hours", .num 1), ("class_attendance", .num 1), ("sleep_hours", .num 1)]

/-- The counterexample frame: two gender categories plus a missing cell. -/
def c2DF : DF := ⟨c2Cols, [c2Row1, c2Row2, c2Row3]⟩

/-- Featured row shared by rows 0 and 2 of the counterexample output
(`gender_b = 0`). -/
def c2ORow0 : Row :=
  [("sleep_quality", .num 0), ("facility_rating", .num 0), ("exam_difficulty", .num 0),
   ("study_hours", .num 1), ("class_attendance", .num 1), ("sleep_hours", .num 1),
   ("gender_b", .num 0), ("study_efficiency", .num (1000000 / 1000001)),
   ("study_sleep_interaction", .num 1), ("study_hours_sq", .num 1),
   ("class_attendance_sq", .num 1)]

/-- Featured row 1 of the counterexample output (`gender_b = 1`). -/
def c2ORow1 : Row :=
  [("sleep_quality", .num 0), ("facility_rating", .num 0), ("exam_difficulty", .num 0),
   ("study_hours", .num 1), ("class_attendance", .num 1), ("sleep_hours", .num 1),
   ("gender_b", .num 1), ("study_efficiency", .num (1000000 / 1000001)),
   ("study_sleep_interaction", .num 1), ("study_hours_sq", .num 1),
   ("class_attendance_sq", .num 1)]

/-- The featured counterexample frame. -/
def c2Out : DF :=
  ⟨["sleep_quality", "facility_rating", "exam_difficulty", "study_hours",
    "class_attendance", "sleep_hours", "gender_b", "study_efficiency",
    "study_sleep_interaction", "study_hours_sq", "class_attendance_sq"],
   [c2ORow0, c2ORow1, c2ORow0]⟩

unseal Rat.mul Rat.inv Rat.add in
/-- Counterexample to C2 as stated: in the third row the single gender
indicator (`gender_b`, with `k = 2` observed categories) is `0`, yet the
row's gender value is a missing cell, not the dropped baseline category
`"a"` — so "all indicators 0 exactly when the value is the dropped
baseline" fails. -/
theorem claim2_counterexample :
    create_features c2DF = Except.ok c2Out
    ∧ observedCats c2DF "gender" = ["a", "b"]
    ∧ dummyNamesFor (encDF c2DF) "gender" = ["gender_b"]
    ∧ rowGet (c2Out.rows.getD 2 []) "gender_b" = Val.num 0
    ∧ rowGet (c2DF.rows.getD 2 []) "gender" ≠ Val.str "a" := by
  refine ⟨by decide, by decide, by decide, by decide, by decide⟩

unseal Rat.mul Rat.inv Rat.add in
/-- Witness for the amended C2 at the example frame, column `gender`,
row 1. -/
theorem claim2_witness :
    (create_features wDF = Except.ok wOut
      ∧ (∀ d ∈ derivedNames, d ∉ wDF.cols)
      ∧ "gender" ∈ nominal_cols ∧ 1 < wDF.rows.length
      ∧ "male" ∈ observedCats wDF "gender"
      ∧ (observedCats wDF "gender").head? = some "female"
      ∧ wRow2 ∈ wDF.rows ∧ rowGet wRow2 "gender" = Val.str "male")
    ∧ ((observedCats wDF "gender").Nodup
      ∧ (observedCats wDF "gender").length
          = ((wDF.rows.filterMap (fun r => match rowGet r "gender" with
              | Val.str u => some u
              | _ => none)).dedup).length
      ∧ "male" ∈ observedCats wDF "gender"
      ∧ strLe "female" "male" = true
      ∧ dummyNamesFor (encDF wDF) "gender"
          = ((observedCats wDF "gender").drop 1).map (fun v => "gender" ++ "_" ++ v)
      ∧ (dummyNamesFor (encDF wDF) "gender").length
          = (observedCats wDF "gender").length - 1
      ∧ wOut.cols = wDF.cols.filter (fun x => !(nominal_cols.contains x))
          ++ dumNames (encDF wDF) ++ derivedNames
      ∧ wOut.rows.getD 1 [] = derivRow (dumRow (encDF wDF) (encRow (wDF.rows.getD 1 [])))
      ∧ (dummyRowFor (encDF wDF) "gender" (encRow (wDF.rows.getD 1 []))).countP
          (fun p => p.2 == Val.num 1) ≤ 1
      ∧ (((dummyRowFor (encDF wDF) "gender" (encRow (wDF.rows.getD 1 []))).all
            (fun p => p.2 == Val.num 0) = true)
          ↔ (rowGet (wDF.rows.getD 1 []) "gender" = Val.str "female"
              ∨ rowGet (wDF.rows.getD 1 []) "gender"
                  ∉ (observedCats wDF "gender").map Val.str))) := by
  have hok : create_features wDF = Except.ok wOut := by decide
  have hfresh : ∀ d ∈ derivedNames, d ∉ wDF.cols := by decide
  have hc : "gender" ∈ nominal_cols := by decide
  have hi : 1 < wDF.rows.length := by decide
  have hs : "male" ∈ observedCats wDF "gender" := by decide
  have hb : (observedCats wDF "gender").head? = some "female" := by decide
  have hr0 : wRow2 ∈ wDF.rows := by decide
  have ht : rowGet wRow2 "gender" = Val.str "male" := by decide
  exact ⟨⟨hok, hfresh, hc, hi, hs, hb, hr0, ht⟩,
    claim2_one_hot_amended wDF wOut "gender" 1 "male" "female" "male" wRow2
      hok hfresh hc hi hs hb hr0 ht⟩

/-! ### Claim C3 -/

theorem not_mem_keys_append_of (r s : Row) (c : String) (hr : c ∉ rowKeys r)
    (hs : c ∉ rowKeys s) : c ∉ rowKeys (r ++ s) := by
  rw [rowKeys_append]
  intro hm
  rcases List.mem_append.1 hm with hm | hm
  · exact hr hm
  · exact hs hm

theorem not_mem_keys_single (c d : String) (v : Val) (h : c ≠ d) :
    c ∉ rowKeys [(d, v)] := by
  intro hm
  rw [rowKeys_cons] at hm
  rcases List.mem_cons.1 hm with hm | hm
  · exact h hm
  · exact absurd hm (List.not_mem_nil c)

theorem derivRow_append_of_fresh (r : Row)
    (h1 : "study_efficiency" ∉ rowKeys r) (h2 : "study_sleep_interaction" ∉ rowKeys r)
    (h3 : "study_hours_sq" ∉ rowKeys r) (h4 : "class_attendance_sq" ∉ rowKeys r) :
    derivRow r = r
      ++ [("study_efficiency", Val.div (rowGet r "class_attendance")
            (Val.add (rowGet r "study_hours") (Val.num epsilon))),
          ("study_sleep_interaction",
            Val.mul (rowGet r "study_hours") (rowGet r "sleep_hours")),
          ("study_hours_sq", Val.mul (rowGet r "study_hours") (rowGet r "study_hours")),
          ("class_attendance_sq",
            Val.mul (rowGet r "class_attendance") (rowGet r "class_attendance"))] := by
  simp only [derivRow]
  rw [rowSet_of_not_mem r "study_efficiency" _ h1]
  rw [rowGet_append_of_not_mem_right r _ "study_hours" (not_mem_keys_single _ _ _ (by decide)),
    rowGet_append_of_not_mem_right r _ "sleep_hours" (not_mem_keys_single _ _ _ (by decide))]
  rw [rowSet_of_not_mem _ "study_sleep_interaction" _
      (not_mem_keys_append_of _ _ _ h2 (not_mem_keys_single _ _ _ (by decide)))]
  rw [rowGet_append_of_not_mem_right _ _ "study_hours"
      (not_mem_keys_single _ _ _ (by decide)),
    rowGet_append_of_not_mem_right r _ "study_hours"
      (not_mem_keys_single _ _ _ (by decide))]
  rw [rowSet_of_not_mem _ "study_hours_sq" _
      (not_mem_keys_append_of _ _ _
        (not_mem_keys_append_of _ _ _ h3 (not_mem_keys_single _ _ _ (by decide)))
        (not_mem_keys_single _ _ _ (by decide)))]
  rw [rowGet_append_of_not_mem_right _ _ "class_attendance"
      (not_mem_keys_single _ _ _ (by decide)),
    rowGet_append_of_not_mem_right _ _ "class_attendance"
      (not_mem_keys_single _ _ _ (by decide)),
    rowGet_append_of_not_mem_right r _ "class_attendance"
      (not_mem_keys_single _ _ _ (by decide))]
  rw [rowSet_of_not_mem _ "class_attendance_sq" _
      (not_mem_keys_append_of _ _ _
        (not_mem_keys_append_of _ _ _
          (not_mem_keys_append_of _ _ _ h4 (not_mem_keys_single _ _ _ (by decide)))
          (not_mem_keys_single _ _ _ (by decide)))
        (not_mem_keys_single _ _ _ (by decide)))]
  simp [List.append_assoc]

theorem getD_mem_rows {l : List Row} {i : Nat} (hi : i < l.length) : l.getD i [] ∈ l := by
  induction l generalizing i with
  | nil => simp at hi
  | cons a l ih =>
    cases i with
    | zero => exact List.mem_cons_self _ _
    | succ n =>
      rw [List.getD_cons_succ]
      exact List.mem_cons_of_mem _ (ih (Nat.lt_of_succ_lt_succ hi))

theorem mem_rowKeys_rowSet_iff (r : Row) (c x : String) (v : Val) :
    x ∈ rowKeys (rowSet r c v) ↔ x ∈ rowKeys r ∨ x = c := by
  by_cases hc : c ∈ rowKeys r
  · rw [rowKeys_rowSet_of_mem _ _ _ hc]
    constructor
    · exact Or.inl
    · rintro (h | rfl)
      · exact h
      · exact hc
  · rw [rowSet_of_not_mem _ _ _ hc, rowKeys_append, List.mem_append]
    constructor
    · rintro (h | h)
      · exact Or.inl h
      · rw [rowKeys_cons] at h
        rcases List.mem_cons.1 h with h | h
        · exact Or.inr h
        · exact absurd h (List.not_mem_nil x)
    · rintro (h | rfl)
      · exact Or.inl h
      · refine Or.inr ?_
        rw [rowKeys_cons]
        exact List.mem_cons_self _ _

theorem rowKeys_dumRow (d : DF) (r : Row) :
    rowKeys (dumRow d r)
      = (rowKeys r).filter (fun k => !(nominal_cols.contains k)) ++ dumNames d := by
  have hk := rowKeys_filter_keys r (fun k => !nominal_cols.contains k)
  rw [dumRow, rowKeys_append, hk, rowKeys_flatMap_dummy]

theorem not_mem_rowKeys_dumRow_encRow (df : DF) (r : Row) (x : String)
    (hx1 : x ∉ rowKeys r) (hx2 : x ∉ dumNames (encDF df))
    (hx3 : x ≠ "sleep_quality") (hx4 : x ≠ "facility_rating")
    (hx5 : x ≠ "exam_difficulty") :
    x ∉ rowKeys (dumRow (encDF df) (encRow r)) := by
  rw [rowKeys_dumRow]
  intro hm
  rcases List.mem_append.1 hm with hm | hm
  · have hx := (List.mem_filter.1 hm).1
    simp only [encRow] at hx
    rw [mem_rowKeys_rowSet_iff, mem_rowKeys_rowSet_iff, mem_rowKeys_rowSet_iff] at hx
    rcases hx with ((hx | hx) | hx) | hx
    · exact hx1 hx
    · exact hx3 hx
    · exact hx4 hx
    · exact hx5 hx
  · exact hx2 hm

/-- C3 (amended): when none of the four derived names is already an input
column (the program's own data always satisfies this; an input that
violates it gets the colliding column overwritten in place instead),
`create_features` appends exactly the four derived columns, in the order
study_efficiency, study_sleep_interaction, study_hours_sq,
class_attendance_sq, both in the column list and at the end of every row,
with values computed from the original numeric cells by the literal
formulas `class_attendance / (study_hours + 1e-6)`,
`study_hours * sleep_hours`, `study_hours^2`, `class_attendance^2`. -/
theorem claim3_derived_features_amended (df df' : DF) (i : Nat)
    (hok : create_features df = Except.ok df') (hwf : df.WF)
    (hfresh : ∀ d ∈ derivedNames, d ∉ df.cols)
    (hi : i < df.rows.length) :
    df'.cols = df.cols.filter (fun x => !(nominal_cols.contains x))
        ++ dumNames (encDF df) ++ derivedNames
    ∧ df'.rows.getD i []
        = dumRow (encDF df) (encRow (df.rows.getD i []))
          ++ [("study_efficiency",
                Val.div (rowGet (df.rows.getD i []) "class_attendance")
                  (Val.add (rowGet (df.rows.getD i []) "study_hours") (Val.num epsilon))),
              ("study_sleep_interaction",
                Val.mul (rowGet (df.rows.getD i []) "study_hours")
                  (rowGet (df.rows.getD i []) "sleep_hours")),
              ("study_hours_sq",
                Val.mul (rowGet (df.rows.getD i []) "study_hours")
                  (rowGet (df.rows.getD i []) "study_hours")),
              ("class_attendance_sq",
                Val.mul (rowGet (df.rows.getD i []) "class_attendance")
                  (rowGet (df.rows.getD i []) "class_attendance"))] := by
  have hkeys : rowKeys (df.rows.getD i []) = df.cols :=
    hwf _ (getD_mem_rows hi)
  have hfr : ∀ x ∈ derivedNames, x ∉ rowKeys (df.rows.getD i []) := by
    intro x hx
    rw [hkeys]
    exact hfresh x hx
  have hrow : df'.rows.getD i [] = featuredRow df (df.rows.getD i []) := by
    rw [create_features_rows hok]
    exact getD_map_rows hi
  refine ⟨create_features_cols_eq hok hfresh, ?_⟩
  rw [hrow, featuredRow]
  rw [derivRow_append_of_fresh _
    (not_mem_rowKeys_dumRow_encRow df _ _ (hfr _ (by decide))
      (not_mem_dummy_names _ _ (by decide)) (by decide) (by decide) (by decide))
    (not_mem_rowKeys_dumRow_encRow df _ _ (hfr _ (by decide))
      (not_mem_dummy_names _ _ (by decide)) (by decide) (by decide) (by decide))
    (not_mem_rowKeys_dumRow_encRow df _ _ (hfr _ (by decide))
      (not_mem_dummy_names _ _ (by decide)) (by decide) (by decide) (by decide))
    (not_mem_rowKeys_dumRow_encRow df _ _ (hfr _ (by decide))
      (not_mem_dummy_names _ _ (by decide)) (by decide) (by decide) (by decide))]
  rw [rowGet_dumRow_of _ _ "class_attendance" (by decide)
      (not_mem_dummy_names _ _ (by decide)),
    rowGet_dumRow_of _ _ "study_hours" (by decide) (not_mem_dummy_names _ _ (by decide)),
    rowGet_dumRow_of _ _ "sleep_hours" (by decide) (not_mem_dummy_names _ _ (by decide))]
  rw [rowGet_encRow_of_ne _ "class_attendance" (by decide) (by decide) (by decide),
    rowGet_encRow_of_ne _ "study_hours" (by decide) (by decide) (by decide),
    rowGet_encRow_of_ne _ "sleep_hours" (by decide) (by decide) (by decide)]

/-- Counterexample frame for C3: the input already contains a column named
`study_hours_sq` (an extra column beyond the ten source columns). -/
def c3DF : DF := ⟨"study_hours_sq" :: wCols, [("study_hours_sq", Val.num 99) :: wRow1]⟩

/-- Output of `create_features` on the C3 counterexample frame: the
pre-existing `study_hours_sq` column is overwritten in place and only
three columns are appended. -/
def c3Out : DF :=
  ⟨["study_hours_sq", "id", "sleep_quality", "facility_rating", "exam_difficulty",
    "study_hours", "class_attendance", "sleep_hours", "study_efficiency",
    "study_sleep_interaction", "class_attendance_sq"],
   [[("study_hours_sq", .num 0), ("id", .num 1), ("sleep_quality", .num 0),
     ("facility_rating", .num 2), ("exam_difficulty", .num 0), ("study_hours", .num 0),
     ("class_attendance", .num 10), ("sleep_hours", .num 8),
     ("study_efficiency", .num 10000000), ("study_sleep_interaction", .num 0),
     ("class_attendance_sq", .num 100)]]⟩

unseal Rat.mul Rat.inv Rat.add in
/-- Counterexample to C3 as stated: on an input that already has a
`study_hours_sq` column, `create_features` does not append four derived
columns — it overwrites `study_hours_sq` in place (99 becomes 0) and
appends only the other three, so the last four columns are not the four
derived names. -/
theorem claim3_counterexample :
    create_features c3DF = Except.ok c3Out
    ∧ "study_hours_sq" ∈ c3DF.cols
    ∧ rowGet (c3DF.rows.getD 0 []) "study_hours_sq" = Val.num 99
    ∧ rowGet (c3Out.rows.getD 0 []) "study_hours_sq" = Val.num 0
    ∧ c3Out.cols.drop (c3Out.cols.length - 4) ≠ derivedNames := by
  refine ⟨by decide, by decide, by decide, by decide, by decide⟩

unseal Rat.mul Rat.inv Rat.add in
/-- Witness for the amended C3 at the example frame, row 0. -/
theorem claim3_witness :
    (create_features wDF = Except.ok wOut ∧ DF.WF wDF
      ∧ (∀ d ∈ derivedNames, d ∉ wDF.cols) ∧ 0 < wDF.rows.length)
    ∧ (wOut.cols = wDF.cols.filter (fun x => !(nominal_cols.contains x))
          ++ dumNames (encDF wDF) ++ derivedNames
      ∧ wOut.rows.getD 0 []
          = dumRow (encDF wDF) (encRow (wDF.rows.getD 0 []))
            ++ [("study_efficiency",
                  Val.div (rowGet (wDF.rows.getD 0 []) "class_attendance")
                    (Val.add (rowGet (wDF.rows.getD 0 []) "study_hours")
                      (Val.num epsilon))),
                ("study_sleep_interaction",
                  Val.mul (rowGet (wDF.rows.getD 0 []) "study_hours")
                    (rowGet (wDF.rows.getD 0 []) "sleep_hours")),
                ("study_hours_sq",
                  Val.mul (rowGet (wDF.rows.getD 0 []) "study_hours")
                    (rowGet (wDF.rows.getD 0 []) "study_hours")),
                ("class_attendance_sq",
                  Val.mul (rowGet (wDF.rows.getD 0 []) "class_attendance")
                    (rowGet (wDF.rows.getD 0 []) "class_attendance"))]) := by
  have hok : create_features wDF = Except.ok wOut := by decide
  have hwf : DF.WF wDF := by decide
  have hfresh : ∀ d ∈ derivedNames, d ∉ wDF.cols := by decide
  have hi : 0 < wDF.rows.length := by decide
  exact ⟨⟨hok, hwf, hfresh, hi⟩,
    claim3_derived_features_amended wDF wOut 0 hok hwf hfresh hi⟩

/-! ### Claim C9 -/

theorem contains_eq_false_iff (l : List String) (x : String) :
    (l.contains x = false) ↔ x ∉ l := by
  induction l with
  | nil => simp
  | cons a as ih => simp [List.contains_cons, ih, Or.comm]

theorem rowGet_dumRow_of_mem (d : DF) (r : Row) (c : String)
    (hq : nominal_cols.contains c = false) (hmem : c ∈ rowKeys r) :
    rowGet (dumRow d r) c = rowGet r c := by
  have hk := rowKeys_filter_keys r (fun x => !nominal_cols.contains x)
  have hmem' : c ∈ rowKeys (r.filter (fun p => !nominal_cols.contains p.1)) := by
    rw [hk, List.mem_filter]
    exact ⟨hmem, by rw [hq]; rfl⟩
  rw [dumRow, rowGet_append_left _ _ _ hmem']
  exact rowGet_filter_keys r (fun x => !nominal_cols.contains x) c
    (by show (!nominal_cols.contains c) = true; rw [hq]; rfl)

theorem rowGet_featuredRow_of_mem (df : DF) (r : Row) (c : String)
    (h1 : c ≠ "study_efficiency") (h2 : c ≠ "study_sleep_interaction")
    (h3 : c ≠ "study_hours_sq") (h4 : c ≠ "class_attendance_sq")
    (hq : nominal_cols.contains c = false) (hmem : c ∈ rowKeys r)
    (h5 : c ≠ "sleep_quality") (h6 : c ≠ "facility_rating")
    (h7 : c ≠ "exam_difficulty") :
    rowGet (featuredRow df r) c = rowGet r c := by
  rw [featuredRow, rowGet_derivRow_of_ne _ _ h1 h2 h3 h4,
    rowGet_dumRow_of_mem _ _ _ hq (mem_rowKeys_encRow_of_mem _ _ hmem),
    rowGet_encRow_of_ne _ _ h5 h6 h7]

/-- C9 (amended): an extra input column (beyond the ten source columns)
passes through `create_features` with its values unchanged, as long as its
name is not one of the four derived names; a column named like a derived
feature is overwritten by the derived values instead. -/
theorem claim9_passthrough_amended (df df' : DF) (c : String) (i : Nat)
    (hok : create_features df = Except.ok df') (hwf : df.WF)
    (hi : i < df.rows.length) (hcin : c ∈ df.cols)
    (hc9 : c ∉ requiredCols) (hcd : c ∉ derivedNames) :
    rowGet (df'.rows.getD i []) c = rowGet (df.rows.getD i []) c := by
  have hne : ∀ s ∈ requiredCols, c ≠ s := fun s hs hh => hc9 (hh ▸ hs)
  have hned : ∀ s ∈ derivedNames, c ≠ s := fun s hs hh => hcd (hh ▸ hs)
  have hq : nominal_cols.contains c = false := by
    rw [contains_eq_false_iff]
    intro hm
    simp only [nominal_cols, List.mem_cons, List.not_mem_nil, or_false] at hm
    rcases hm with rfl | rfl | rfl | rfl
    · exact hne "gender" (by decide) rfl
    · exact hne "course" (by decide) rfl
    · exact hne "internet_access" (by decide) rfl
    · exact hne "study_method" (by decide) rfl
  have hrow : df'.rows.getD i [] = featuredRow df (df.rows.getD i []) := by
    rw [create_features_rows hok]
    exact getD_map_rows hi
  rw [hrow]
  exact rowGet_featuredRow_of_mem df _ c
    (hned _ (by decide)) (hned _ (by decide)) (hned _ (by decide)) (hned _ (by decide))
    hq (by rw [hwf _ (getD_mem_rows hi)]; exact hcin)
    (hne _ (by decide)) (hne _ (by decide)) (hne _ (by decide))

/-- Counterexample frame for C9: an extra column named `study_efficiency`
holds the value 5. -/
def c9DF : DF := ⟨wCols ++ ["study_efficiency"], [wRow2 ++ [("study_efficiency", .num 5)]]⟩

/-- Output of `create_features` on the C9 counterexample frame: the extra
`study_efficiency` column was overwritten (5 became 50000000/2000001). -/
def c9Out : DF :=
  ⟨["id", "sleep_quality", "facility_rating", "exam_difficulty", "study_hours",
    "class_attendance", "sleep_hours", "study_efficiency", "study_sleep_interaction",
    "study_hours_sq", "class_attendance_sq"],
   [[("id", .num 2), ("sleep_quality", .missing), ("facility_rating", .num 0),
     ("exam_difficulty", .num 2), ("study_hours", .num 2), ("class_attendance", .num 50),
     ("sleep_hours", .num 7), ("study_efficiency", .num (50000000 / 2000001)),
     ("study_sleep_interaction", .num 14), ("study_hours_sq", .num 4),
     ("class_attendance_sq", .num 2500)]]⟩

unseal Rat.mul Rat.inv Rat.add in
/-- Counterexample to C9 as stated: the extra input column
`study_efficiency` (value 5) does not pass through unchanged — its cell is
overwritten by the derived efficiency value. -/
theorem claim9_counterexample :
    "study_efficiency" ∈ c9DF.cols
    ∧ "study_efficiency" ∉ requiredCols
    ∧ create_features c9DF = Except.ok c9Out
    ∧ rowGet (c9DF.rows.getD 0 []) "study_efficiency" = Val.num 5
    ∧ rowGet (c9Out.rows.getD 0 []) "study_efficiency" ≠ Val.num 5 := by
  refine ⟨by decide, by decide, by decide, by decide, by decide⟩

unseal Rat.mul Rat.inv Rat.add in
/-- Witness for the amended C9 at the example frame, extra column `id`,
row 0. -/
theorem claim9_witness :
    (create_features wDF = Except.ok wOut ∧ DF.WF wDF ∧ 0 < wDF.rows.length
      ∧ "id" ∈ wDF.cols ∧ "id" ∉ requiredCols ∧ "id" ∉ derivedNames)
    ∧ rowGet (wOut.rows.getD 0 []) "id" = rowGet (wDF.rows.getD 0 []) "id" := by
  have hok : create_features wDF = Except.ok wOut := by decide
  have hwf : DF.WF wDF := by decide
  have hi : 0 < wDF.rows.length := by decide
  have hcin : "id" ∈ wDF.cols := by decide
  have hc9 : "id" ∉ requiredCols := by decide
  have hcd : "id" ∉ derivedNames := by decide
  exact ⟨⟨hok, hwf, hi, hcin, hc9, hcd⟩,
    claim9_passthrough_amended wDF wOut "id" 0 hok hwf hi hcin hc9 hcd⟩

/-! ### Claims C5 and C10 -/

theorem getD_map' {α β : Type} (l : List α) (f : α → β) (d : β) (d' : α) (i : Nat)
    (hi : i < l.length) : (l.map f).getD i d = f (l.getD i d') := by
  induction l generalizing i with
  | nil => simp at hi
  | cons a l ih =>
    cases i with
    | zero => simp
    | succ n =>
      rw [List.map_cons, List.getD_cons_succ, List.getD_cons_succ]
      exact ih n (Nat.lt_of_succ_lt_succ hi)

theorem getD_zip {α β : Type} (A : List α) (B : List β) (da : α) (db : β) (i : Nat)
    (hiA : i < A.length) (hiB : i < B.length) :
    (A.zip B).getD i (da, db) = (A.getD i da, B.getD i db) := by
  induction A generalizing B i with
  | nil => simp at hiA
  | cons a A ih =>
    cases B with
    | nil => simp at hiB
    | cons b B =>
      cases i with
      | zero => simp
      | succ n =>
        rw [List.zip_cons_cons, List.getD_cons_succ, List.getD_cons_succ,
          List.getD_cons_succ]
        exact ih B n (Nat.lt_of_succ_lt_succ hiA) (Nat.lt_of_succ_lt_succ hiB)

theorem exam_score_not_in_featured {train test featured : DF}
    (hF : create_features (concatDF (trainPart train) test) = .ok featured)
    (hte : "exam_score" ∉ test.cols) :
    "exam_score" ∉ featured.cols := by
  intro hm
  rw [create_features_cols_mem hF] at hm
  rcases hm with ⟨hm, -⟩ | hm | hm
  · dsimp [concatDF, trainPart] at hm
    rcases List.mem_append.1 hm with hm | hm
    · have hbad := (List.mem_filter.1 hm).2
      simp at hbad
    · exact hte (List.mem_filter.1 hm).1
  · exact not_mem_dummy_names _ _ (by decide) hm
  · exact absurd hm (by decide)

/-- C5: for every train/test file pair in which the train table carries the
label column `exam_score` and the test table (per the data contract) does
not, the pipeline's train output has the same number of rows as the train
input with `exam_score` equal to the input labels row by row, and the test
output has no `exam_score` column at all. -/
theorem claim5_label_round_trip (train test trf tef : DF) (i : Nat)
    (hpk : runPipeline train test = Except.ok (trf, tef))
    (hte : "exam_score" ∉ test.cols) (hi : i < train.rows.length) :
    trf.rows.length = train.rows.length
    ∧ rowGet (trf.rows.getD i []) "exam_score"
        = rowGet (train.rows.getD i []) "exam_score"
    ∧ "exam_score" ∉ tef.cols
    ∧ "exam_score" ∈ train.cols := by
  obtain ⟨featured, hesc, hF, hTrf, hTef, hLen⟩ := runPipeline_parts hpk
  have hnes := exam_score_not_in_featured hF hte
  have hmaplen : (train.rows.map (fun r => rowGet r "exam_score")).length
      = train.rows.length := List.length_map _ _
  have hziplen : ((featured.rows.take train.rows.length).zip
      (train.rows.map (fun r => rowGet r "exam_score"))).length = train.rows.length := by
    rw [List.length_zip, hLen, hmaplen]
    exact Nat.min_self _
  have h1 : trf.rows.length = train.rows.length := by
    rw [hTrf]
    show (List.map _ _).length = _
    rw [List.length_map]
    exact hziplen
  refine ⟨h1, ?_, ?_, hesc⟩
  · rw [hTrf]
    show rowGet ((((featured.rows.take train.rows.length).zip
        (train.rows.map (fun r => rowGet r "exam_score"))).map
          (fun rv => rowSet rv.1 "exam_score" rv.2)).getD i []) "exam_score" = _
    rw [getD_map' _ _ [] ([], Val.missing) i (by rw [hziplen]; exact hi)]
    rw [getD_zip _ _ [] Val.missing i (by rw [hLen]; exact hi)
      (by rw [hmaplen]; exact hi)]
    rw [rowGet_rowSet_self]
    exact getD_map' _ _ Val.missing [] i hi
  · rw [hTef]
    exact hnes

/-- C10: the reattached label `exam_score` is always the last column of the
pipeline's train output, regardless of its position in the raw train
input: the label is dropped before feature derivation and appended after
all derived columns. -/
theorem claim10_label_last (train test trf tef : DF)
    (hpk : runPipeline train test = Except.ok (trf, tef))
    (hte : "exam_score" ∉ test.cols) :
    trf.cols.getLast? = some "exam_score" := by
  obtain ⟨featured, hesc, hF, hTrf, hTef, hLen⟩ := runPipeline_parts hpk
  have hnes := exam_score_not_in_featured hF hte
  rw [hTrf]
  show (if "exam_score" ∈ featured.cols then featured.cols
      else featured.cols ++ ["exam_score"]).getLast? = _
  rw [if_neg hnes]
  exact List.getLast?_concat _

unseal Rat.mul Rat.inv Rat.add in
/-- Witness for C5 at the example pipeline run, row 0 (label 70). -/
theorem claim5_witness :
    (runPipeline wTrain wTest = Except.ok (wTrainOut, wTestOut)
      ∧ "exam_score" ∉ wTest.cols ∧ 0 < wTrain.rows.length)
    ∧ (wTrainOut.rows.length = wTrain.rows.length
      ∧ rowGet (wTrainOut.rows.getD 0 []) "exam_score"
          = rowGet (wTrain.rows.getD 0 []) "exam_score"
      ∧ "exam_score" ∉ wTestOut.cols
      ∧ "exam_score" ∈ wTrain.cols) := by
  have hpk : runPipeline wTrain wTest = Except.ok (wTrainOut, wTestOut) := by decide
  have hte : "exam_score" ∉ wTest.cols := by decide
  have hi : 0 < wTrain.rows.length := by decide
  exact ⟨⟨hpk, hte, hi⟩, claim5_label_round_trip wTrain wTest wTrainOut wTestOut 0 hpk hte hi⟩

unseal Rat.mul Rat.inv Rat.add in
/-- Witness for C10 at the example pipeline run (the label sits in the
second column of the raw train input, yet ends up last). -/
theorem claim10_witness :
    (runPipeline wTrain wTest = Except.ok (wTrainOut, wTestOut)
      ∧ "exam_score" ∉ wTest.cols
      ∧ wTrain.cols.getD 1 "" = "exam_score")
    ∧ wTrainOut.cols.getLast? = some "exam_score" := by
  have hpk : runPipeline wTrain wTest = Except.ok (wTrainOut, wTestOut) := by decide
  have hte : "exam_score" ∉ wTest.cols := by decide
  exact ⟨⟨hpk, hte, by decide⟩, claim10_label_last wTrain wTest wTrainOut wTestOut hpk hte⟩

/-- Frame missing the required source column `course`. -/
def wBad : DF :=
  ⟨["id", "gender", "internet_access", "study_method", "sleep_quality",
    "facility_rating", "exam_difficulty", "study_hours", "class_attendance",
    "sleep_hours"], []⟩

/-- Witness for C8: the frame lacking `course` fails with a `KeyError`
naming it. -/
theorem claim8_witness :
    ("course" ∈ requiredCols ∧ "course" ∉ wBad.cols)
    ∧ (create_features wBad
          = Except.error ("KeyError: " ++ (firstMissing wBad.cols requiredCols).getD "")
      ∧ (firstMissing wBad.cols requiredCols).getD "" ∈ requiredCols
      ∧ (firstMissing wBad.cols requiredCols).getD "" ∉ wBad.cols) := by
  have h1 : "course" ∈ requiredCols := by decide
  have h2 : "course" ∉ wBad.cols := by decide
  exact ⟨⟨h1, h2⟩, claim8_missing_column wBad "course" h1 h2⟩
